import Mathlib

/-!
SPUMeter: range selection, sub-meter pool, mode propagation, grid layout, the
text summary and the expanded display.

A shallow embedding of `SPUMeter.c`.

Conventions of the embedding
* C `unsigned int` unit counts are `Nat`, C `int` coordinates are `Int`: the
  pool, layout and text operations are embedded in this unbounded arithmetic,
  which is the arithmetic of the source while the values fit the machine types.
  The range selection is given in 32-bit machine arithmetic as well
  (`AllSPUsMeter_getRange32`); the two agree for unit counts up to `INT_MAX`.
  C's `/` and `%` on `int` truncate toward zero and are `Int.tdiv` and
  `Int.tmod`; a division by zero is a fault.
* `this->host` is a pointer to a shared `Machine`; the pointed-to value is an
  explicit argument of every operation.
* A function that may dereference a null or out-of-range pointer, divide by
  zero or trip an `assert` returns `Option`; `none` is the fault.
* Collaborators that live outside `SPUMeter.c` (the sample provider, the
  generic `Meter_setMode`, `printf` float conversion, the degree sign, the
  build switch `BUILD_WITH_SPU_TEMP`) and the rounded `double` arithmetic of
  the Fahrenheit conversion are parameters; the small helpers of other files
  are modelled where their doc comment says so.
-/

namespace SPUMeter

/-! ## Data model -/

/-- A C `double` sample, abstracted to what the code distinguishes: the
not-a-number sample, the two infinities and the finite values. -/
inductive Double where
  | nan
  | inf (negative : Bool)
  | val (q : ℚ)
deriving DecidableEq

/-- The fields of `Settings` read by `SPUMeter.c`. -/
structure Settings where
  showSPUUsage : Bool
  showSPUFrequency : Bool
  showSPUTemperature : Bool
  degreeFahrenheit : Bool
  detailedSPUTime : Bool
  countSPUsFromOne : Bool
deriving DecidableEq

/-- The fields of `Machine` read by `SPUMeter.c`. -/
structure Machine where
  existingSPUs : Nat
  activeSPUs : Nat
  settings : Settings
deriving DecidableEq

/-- Embeds `SPU_METER_ITEMCOUNT` of `SPUMeter.h`. -/
def SPU_METER_ITEMCOUNT : Nat := 10

/-- Embeds `SPU_METER_NICE` of `SPUMeter.h`. -/
def SPU_METER_NICE : Nat := 0

/-- Embeds `SPU_METER_NORMAL` of `SPUMeter.h`. -/
def SPU_METER_NORMAL : Nat := 1

/-- Embeds `SPU_METER_KERNEL` of `SPUMeter.h`. -/
def SPU_METER_KERNEL : Nat := 2

/-- Embeds `SPU_METER_IRQ` of `SPUMeter.h`. -/
def SPU_METER_IRQ : Nat := 3

/-- Embeds `SPU_METER_SOFTIRQ` of `SPUMeter.h`. -/
def SPU_METER_SOFTIRQ : Nat := 4

/-- Embeds `SPU_METER_STEAL` of `SPUMeter.h`. -/
def SPU_METER_STEAL : Nat := 5

/-- Embeds `SPU_METER_GUEST` of `SPUMeter.h`. -/
def SPU_METER_GUEST : Nat := 6

/-- Embeds `SPU_METER_IOWAIT` of `SPUMeter.h`. -/
def SPU_METER_IOWAIT : Nat := 7

/-- Embeds `SPU_METER_FREQUENCY` of `SPUMeter.h`. -/
def SPU_METER_FREQUENCY : Nat := 8

/-- Embeds `SPU_METER_TEMPERATURE` of `SPUMeter.h`. -/
def SPU_METER_TEMPERATURE : Nat := 9

/-- A per-unit child meter (class `SPUMeter_class`): the fields of `Meter`
that `SPUMeter.c` reads or writes. -/
structure Meter where
  param : Nat
  h : Int
  mode : Nat
  caption : String
  values : List Double
  curItems : Nat
  txtBuffer : String
deriving DecidableEq

/-- Embeds `SPUMeterData`: the pool of an aggregate meter.  `meters` is the slot
array; a slot is `none` while it holds a null pointer, and the null array of
a pool of zero slots is the empty list. -/
structure SPUMeterData where
  spus : Nat
  meters : List (Option Meter)
deriving DecidableEq

/-- An aggregate meter (one of the twelve `...SPUs...Meter_class` classes):
`name` is `Meter_name(this)`, `meterData` is null until the first init. -/
structure ParentMeter where
  name : String
  mode : Nat
  h : Int
  meterData : Option SPUMeterData
deriving DecidableEq

/-! ## Range selection -/

/-- Embeds `AllSPUsMeter_getRange` in unbounded arithmetic: `(start, count)`
selected by the first character of the meter's name.  These are the values of
the source while the unit count fits `int` (`existingSPUs ≤ INT_MAX`, see
`getRange32_eq`); `AllSPUsMeter_getRange32` gives them for every `unsigned int`
count. -/
def AllSPUsMeter_getRange (host : Machine) (this : ParentMeter) : Int × Int :=
  let spus : Nat := host.existingSPUs
  match this.name.toList.head? with
  | some 'L' => (0, (((spus + 1) / 2 : Nat) : Int))
  | some 'R' =>
    let start : Int := (((spus + 1) / 2 : Nat) : Int)
    (start, (spus : Int) - start)
  | _ => (0, (spus : Int))

/-- The largest value of the 32-bit `int` of the source. -/
def INT_MAX : Nat := 2147483647

/-- The conversion of an `unsigned int` value to `int`: the value itself up to
`INT_MAX`, and the value minus `2^32` above it. -/
def toInt32 (u : Nat) : Int :=
  if u % 4294967296 ≤ INT_MAX then ((u % 4294967296 : Nat) : Int)
  else ((u % 4294967296 : Nat) : Int) - 4294967296

/-- The function `AllSPUsMeter_getRange` in the 32-bit machine arithmetic of the
source: `spus` is an `unsigned int`, `spus + 1` and `spus - *start` are computed
modulo `2^32`, and the results are stored into `int` out-parameters. -/
def AllSPUsMeter_getRange32 (host : Machine) (this : ParentMeter) : Int × Int :=
  let spus : Nat := host.existingSPUs % 4294967296
  match this.name.toList.head? with
  | some 'L' => (0, toInt32 ((spus + 1) % 4294967296 / 2))
  | some 'R' =>
    let start : Int := toInt32 ((spus + 1) % 4294967296 / 2)
    (start, toInt32 (((spus : Int) - start) % 4294967296).toNat)
  | _ => (0, toInt32 spus)

/-! ## Collaborators outside `SPUMeter.c` -/

/-- Modelled from the spec: `isNonnegative` (Macros.h, not in src) holds of a
sample that is "a valid non-negative number"; not-a-number is not one. -/
def isNonnegative : Double → Bool
  | .nan => false
  | .inf negative => !negative
  | .val q => decide (0 ≤ q)

/-- Modelled from the spec: `isNaN` (Macros.h, not in src) holds of the
distinct "not-a-number" sample only. -/
def isNaN : Double → Bool
  | .nan => true
  | _ => false

/-- The C conversions `(int)x` and `(unsigned)x` of a finite sample whose
truncation fits the target type: truncation toward zero.  C leaves the
conversion of every other sample undefined; here a finite sample out of range
keeps its truncation and the other samples give 0, and no theorem relies on
these values. -/
def Double.toInt : Double → Int
  | .val q => Int.tdiv q.num (q.den : Int)
  | _ => 0

/-- Conversion `%<width>u` of `printf`: decimal digits, right-aligned in
`width` columns with blanks. -/
def fmtUnsigned (width : Nat) (n : Nat) : String :=
  let s := toString n
  String.mk (List.replicate (width - s.length) ' ') ++ s

/-- Conversion `%<width>d` of `printf`. -/
def fmtInt (width : Nat) (z : Int) : String :=
  let s := toString z
  String.mk (List.replicate (width - s.length) ' ') ++ s

/-- Modelled from the spec: `Settings_spuId` (Settings.h, not in src) gives
the displayed number of a 0-based unit under the unit-numbering order. -/
def Settings_spuId (settings : Settings) (spu : Nat) : Nat :=
  if settings.countSPUsFromOne then spu + 1 else spu

/-- What `SPUMeter.c` takes from the rest of the program. -/
structure Externals where
  /-- Call `Platform_setSPUValues(this, spu)`: fills the value slots of the meter
  and returns the usage percent. -/
  Platform_setSPUValues : Meter → Nat → Meter × Double
  /-- The string `CRT_degreeSign`. -/
  CRT_degreeSign : String
  /-- Whether `BUILD_WITH_SPU_TEMP` is defined. -/
  BUILD_WITH_SPU_TEMP : Bool
  /-- Conversion `%.1f` of `printf`. -/
  printf_f1 : Double → String
  /-- Conversion `%5.1f` of `printf`. -/
  printf_5f1 : Double → String
  /-- The value of the expression `spuTemperature * 9 / 5 + 32` in the `double`
  arithmetic of the platform: three operations, each rounded. -/
  toFahrenheit : Double → Double

/-- Modelled from the spec: `Meter_new` (Meter.c, not in src) constructs a
child bound to the unit `param`; the fresh child of class `SPUMeter_class` has
the class caption, `maxItems` zeroed value slots and is one row high. -/
def Meter_new (param : Nat) : Meter :=
  { param := param, h := 1, mode := 0, caption := "SPU",
    values := List.replicate SPU_METER_ITEMCOUNT (Double.val 0),
    curItems := SPU_METER_ITEMCOUNT, txtBuffer := "" }

/-! ## The per-unit meter -/

/-- Embeds `SPUMeter_init`, which `Meter_init` dispatches to for a child. -/
def SPUMeter_init (host : Machine) (this : Meter) : Meter :=
  let spu := this.param
  if spu = 0 then
    { this with caption := "Avg" }
  else if host.activeSPUs > 1 then
    { this with caption := fmtUnsigned 3 (Settings_spuId host.settings (spu - 1)) }
  else
    this

/-- The usage segment: `"%.1f%%"` of the percent. -/
def usageSegment (ext : Externals) (percent : Double) : String :=
  ext.printf_f1 percent ++ "%"

/-- The frequency segment: `"%4uMHz"` of the sample cast to unsigned, or
`"N/A"`. -/
def frequencySegment (spuFrequency : Double) : String :=
  if isNonnegative spuFrequency then
    fmtUnsigned 4 spuFrequency.toInt.toNat ++ "MHz"
  else
    "N/A"

/-- The temperature segment: `"N/A"`, `"%3d%sF"` or `"%d%sC"`. -/
def temperatureSegment (ext : Externals) (settings : Settings) (spuTemperature : Double) : String :=
  if isNaN spuTemperature then
    "N/A"
  else if settings.degreeFahrenheit then
    fmtInt 3 (ext.toFahrenheit spuTemperature).toInt ++ ext.CRT_degreeSign ++ "F"
  else
    fmtInt 0 spuTemperature.toInt ++ ext.CRT_degreeSign ++ "C"

/-- The tail of `SPUMeter_updateValues` for a present, online unit: the three
buffers and the text `"%s%s%s%s%s"` written from them. -/
def summaryText (ext : Externals) (settings : Settings) (this : Meter) (percent : Double) :
    String :=
  let spuUsageBuffer :=
    if settings.showSPUUsage then usageSegment ext percent else ""
  let spuFrequencyBuffer :=
    if settings.showSPUFrequency then
      frequencySegment (this.values.getD SPU_METER_FREQUENCY (Double.val 0))
    else ""
  let spuTemperatureBuffer :=
    if ext.BUILD_WITH_SPU_TEMP && settings.showSPUTemperature then
      temperatureSegment ext settings (this.values.getD SPU_METER_TEMPERATURE (Double.val 0))
    else ""
  spuUsageBuffer
    ++ (if spuUsageBuffer ≠ "" ∧ (spuFrequencyBuffer ≠ "" ∨ spuTemperatureBuffer ≠ "")
        then " " else "")
    ++ spuFrequencyBuffer
    ++ (if spuFrequencyBuffer ≠ "" ∧ spuTemperatureBuffer ≠ "" then " " else "")
    ++ spuTemperatureBuffer

/-- Embeds `SPUMeter_updateValues`. -/
def SPUMeter_updateValues (ext : Externals) (host : Machine) (this : Meter) : Meter :=
  let this := { this with values := List.replicate SPU_METER_ITEMCOUNT (Double.val 0) }
  let settings := host.settings
  let spu := this.param
  if spu > host.existingSPUs then
    { this with txtBuffer := "absent" }
  else
    let (this, percent) := ext.Platform_setSPUValues this spu
    if !isNonnegative percent then
      { this with txtBuffer := "offline" }
    else
      { this with txtBuffer := summaryText ext settings this percent }

/-! ## The expanded display of the per-unit meter -/

/-- The elements of `CRT_colors` that `SPUMeter_display` uses. -/
inductive ColorElement where
  | METER_SHADOW
  | METER_TEXT
  | METER_VALUE
  | CPU_NORMAL
  | CPU_SYSTEM
  | CPU_NICE_TEXT
  | CPU_IRQ
  | CPU_SOFTIRQ
  | CPU_STEAL
  | CPU_GUEST
  | CPU_IOWAIT
deriving DecidableEq

/-- One field of the display: the label appended in `METER_TEXT`, then the
buffer `"%5.1f%% "` of the value appended in the colour of the field. -/
def displayField (ext : Externals) (label : String) (color : ColorElement) (value : Double) :
    List (ColorElement × String) :=
  [(ColorElement.METER_TEXT, label), (color, ext.printf_5f1 value ++ "% ")]

/-- The frequency field of the display: `"freq: "`, then `"%4uMHz "` or
`"N/A     "`. -/
def displayFrequency (spuFrequency : Double) : List (ColorElement × String) :=
  [(ColorElement.METER_TEXT, "freq: "),
   (ColorElement.METER_VALUE,
    if isNonnegative spuFrequency then fmtUnsigned 4 spuFrequency.toInt.toNat ++ "MHz "
    else "N/A     ")]

/-- The temperature field of the display: `"temp:"`, then `"N/A"`,
`"%5.1f%sF"` or `"%5.1f%sC"`. -/
def displayTemperature (ext : Externals) (settings : Settings) (spuTemperature : Double) :
    List (ColorElement × String) :=
  [(ColorElement.METER_TEXT, "temp:"),
   (ColorElement.METER_VALUE,
    if isNaN spuTemperature then "N/A"
    else if settings.degreeFahrenheit then
      ext.printf_5f1 (ext.toFahrenheit spuTemperature) ++ ext.CRT_degreeSign ++ "F"
    else
      ext.printf_5f1 spuTemperature ++ ext.CRT_degreeSign ++ "C")]

/-- Embeds `SPUMeter_display`: the chunks appended to `out`, in order, each with
the colour element it is appended in. -/
def SPUMeter_display (ext : Externals) (host : Machine) (this : Meter) :
    List (ColorElement × String) :=
  let settings := host.settings
  let value := fun slot : Nat => this.values.getD slot (Double.val 0)
  if this.param > host.existingSPUs then
    [(ColorElement.METER_SHADOW, " absent")]
  else if this.curItems = 0 then
    [(ColorElement.METER_SHADOW, " offline")]
  else
    displayField ext ":" ColorElement.CPU_NORMAL (value SPU_METER_NORMAL)
    ++ (if settings.detailedSPUTime then
          displayField ext "sy:" ColorElement.CPU_SYSTEM (value SPU_METER_KERNEL)
          ++ displayField ext "ni:" ColorElement.CPU_NICE_TEXT (value SPU_METER_NICE)
          ++ displayField ext "hi:" ColorElement.CPU_IRQ (value SPU_METER_IRQ)
          ++ displayField ext "si:" ColorElement.CPU_SOFTIRQ (value SPU_METER_SOFTIRQ)
          ++ (if isNonnegative (value SPU_METER_STEAL) then
                displayField ext "st:" ColorElement.CPU_STEAL (value SPU_METER_STEAL)
              else [])
          ++ (if isNonnegative (value SPU_METER_GUEST) then
                displayField ext "gu:" ColorElement.CPU_GUEST (value SPU_METER_GUEST)
              else [])
          ++ displayField ext "wa:" ColorElement.CPU_IOWAIT (value SPU_METER_IOWAIT)
        else
          displayField ext "sys:" ColorElement.CPU_SYSTEM (value SPU_METER_KERNEL)
          ++ displayField ext "low:" ColorElement.CPU_NICE_TEXT (value SPU_METER_NICE)
          ++ (if isNonnegative (value SPU_METER_IRQ) then
                displayField ext "vir:" ColorElement.CPU_GUEST (value SPU_METER_IRQ)
              else []))
    ++ (if settings.showSPUFrequency then displayFrequency (value SPU_METER_FREQUENCY)
        else [])
    ++ (if ext.BUILD_WITH_SPU_TEMP && settings.showSPUTemperature then
          displayTemperature ext settings (value SPU_METER_TEMPERATURE)
        else [])

/-! ## The pool of an aggregate meter -/

/-- The loop `for (int i = 0; i < n; i++) body(i)` over a state `σ`; an
iteration that faults ends the run. -/
def forLoop {σ : Type} (body : Nat → σ → Option σ) : Nat → σ → Option σ
  | 0, s => some s
  | n + 1, s => (forLoop body n s).bind (body n)

/-- What an init call does to the heap and to the children, in order. -/
inductive PoolEvent where
  /-- Call `xMalloc(sizeof(SPUMeterData))`. -/
  | allocData
  /-- Call `xCalloc(count, sizeof(Meter*))`. -/
  | allocSlots (count : Nat)
  /-- Call `Meter_new(host, param, Class(SPUMeter))`. -/
  | construct (param : Nat)
  /-- Call `Meter_init(meters[i])`. -/
  | init (i : Nat)
deriving DecidableEq

/-- One iteration of the loop of `SPUMeterCommonInit`. -/
def initSlot (host : Machine) (start : Int) (i : Nat)
    (st : List (Option Meter) × List PoolEvent) : Option (List (Option Meter) × List PoolEvent) :=
  match st.1[i]? with
  | none => none
  | some none =>
    let param := (start + (i : Int) + 1).toNat
    some (st.1.set i (some (SPUMeter_init host (Meter_new param))),
          st.2 ++ [PoolEvent.construct param, PoolEvent.init i])
  | some (some m) =>
    some (st.1.set i (some (SPUMeter_init host m)), st.2 ++ [PoolEvent.init i])

/-- Embeds `SPUMeterCommonInit`: the meter after the call and the events of the
call. -/
def SPUMeterCommonInit (host : Machine) (this : ParentMeter) :
    Option (ParentMeter × List PoolEvent) :=
  let (start, count) := AllSPUsMeter_getRange host this
  let (data, events) : SPUMeterData × List PoolEvent :=
    match this.meterData with
    | some data => (data, [])
    | none =>
      ({ spus := host.existingSPUs, meters := List.replicate count.toNat none },
       if count ≠ 0 then [PoolEvent.allocData, PoolEvent.allocSlots count.toNat]
       else [PoolEvent.allocData])
  (forLoop (initSlot host start) count.toNat (data.meters, events)).map fun st =>
    ({ this with meterData := some { data with meters := st.1 } }, st.2)

/-- A call `op(meters[i])` that updates the child in slot `i` in place; a slot
out of range or holding a null pointer is a fault. -/
def applySlot (op : Meter → Meter) (i : Nat) (meters : List (Option Meter)) :
    Option (List (Option Meter)) :=
  match meters[i]? with
  | some (some m) => some (meters.set i (some (op m)))
  | _ => none

/-- One iteration of the loop of `AllSPUsMeter_updateValues`:
`Meter_updateValues(meters[i])`. -/
def updateSlot (ext : Externals) (host : Machine) (i : Nat)
    (meters : List (Option Meter)) : Option (List (Option Meter)) :=
  applySlot (SPUMeter_updateValues ext host) i meters

/-- Embeds `AllSPUsMeter_updateValues`. -/
def AllSPUsMeter_updateValues (ext : Externals) (host : Machine) (this : ParentMeter) :
    Option ParentMeter :=
  match this.meterData with
  | none => none
  | some data =>
    let (_, count) := AllSPUsMeter_getRange host this
    (forLoop (updateSlot ext host) count.toNat data.meters).map fun ms =>
      { this with meterData := some { data with meters := ms } }

/-- One iteration of the loop of `SPUMeterCommonUpdateMode`:
`Meter_setMode(meters[i], mode)`. -/
def setModeSlot (Meter_setMode : Meter → Nat → Meter) (mode : Nat) (i : Nat)
    (meters : List (Option Meter)) : Option (List (Option Meter)) :=
  applySlot (fun m => Meter_setMode m mode) i meters

/-- Embeds `SPUMeterCommonUpdateMode`; `Meter_setMode` is the generic mode setter of
Meter.c (not in src). -/
def SPUMeterCommonUpdateMode (Meter_setMode : Meter → Nat → Meter) (host : Machine)
    (this : ParentMeter) (mode : Nat) (ncol : Int) : Option ParentMeter :=
  match this.meterData with
  | none => none
  | some data =>
    let this := { this with mode := mode }
    let (_, count) := AllSPUsMeter_getRange host this
    if count = 0 then
      some { this with h := 1 }
    else
      (forLoop (setModeSlot Meter_setMode mode) count.toNat data.meters).bind fun ms =>
        match ms[0]? with
        | some (some m0) =>
          let h := m0.h
          if 0 < h then
            if ncol = 0 then none
            else
              some { this with
                h := h * Int.tdiv (count + ncol - 1) ncol
                meterData := some { data with meters := ms } }
          else none
        | _ => none

/-- A call `meters[i]->draw(meters[i], x, y, w)`. -/
structure DrawCall where
  child : Nat
  x : Int
  y : Int
  w : Int
deriving DecidableEq

/-- The number of rows `(count + ncol - 1) / ncol`. -/
def gridRows (count ncol : Int) : Int :=
  Int.tdiv (count + ncol - 1) ncol

/-- The cell `(i / nrows, i % nrows)` of child `i`: its column and its row. -/
def gridCell (nrows i : Int) : Int × Int :=
  (Int.tdiv i nrows, Int.tmod i nrows)

/-- The horizontal offset `(column * colwidth) + d` of a column, with the
spacer `d = column > diff ? diff : column`. -/
def columnOffset (colwidth diff column : Int) : Int :=
  let d := if column > diff then diff else column
  column * colwidth + d

/-- One iteration of the loop of `SPUMeterCommonDraw`. -/
def drawSlot (meters : List (Option Meter)) (x y colwidth diff nrows : Int) (i : Nat)
    (calls : List DrawCall) : Option (List DrawCall) :=
  if nrows = 0 then none
  else
    let cell := gridCell nrows (i : Int)
    let xpos := x + columnOffset colwidth diff cell.1
    match meters[0]?, meters[i]? with
    | some (some m0), some (some _) =>
      let ypos := y + cell.2 * m0.h
      some (calls ++ [{ child := i, x := xpos, y := ypos, w := colwidth }])
    | _, _ => none

/-- Embeds `SPUMeterCommonDraw`: the draw calls issued to the children, in order. -/
def SPUMeterCommonDraw (host : Machine) (this : ParentMeter) (x y w ncol : Int) :
    Option (List DrawCall) :=
  match this.meterData with
  | none => none
  | some data =>
    let (_, count) := AllSPUsMeter_getRange host this
    if ncol = 0 then none
    else
      let colwidth := Int.tdiv w ncol
      let diff := Int.tmod w ncol
      let nrows := gridRows count ncol
      forLoop (drawSlot data.meters x y colwidth diff nrows) count.toNat []

/-- One iteration of the loop of `SingleColSPUsMeter_draw`: the state is the
running `y` and the calls so far. -/
def singleColSlot (meters : List (Option Meter)) (x w : Int) (i : Nat)
    (st : Int × List DrawCall) : Option (Int × List DrawCall) :=
  match meters[i]? with
  | some (some m) => some (st.1 + m.h, st.2 ++ [{ child := i, x := x, y := st.1, w := w }])
  | _ => none

/-- Embeds `SingleColSPUsMeter_draw`. -/
def SingleColSPUsMeter_draw (host : Machine) (this : ParentMeter) (x y w : Int) :
    Option (List DrawCall) :=
  match this.meterData with
  | none => none
  | some data =>
    let (_, count) := AllSPUsMeter_getRange host this
    (forLoop (singleColSlot data.meters x w) count.toNat (y, [])).map fun st => st.2

/-- The width a column consumes of the parent's rectangle: up to the next
column's offset, and `colwidth` for the last column. -/
def consumedWidth (w ncol column : Int) : Int :=
  let colwidth := Int.tdiv w ncol
  let diff := Int.tmod w ncol
  if column + 1 < ncol then
    columnOffset colwidth diff (column + 1) - columnOffset colwidth diff column
  else
    colwidth

/-! ## The aggregate meter classes -/

/-- The sum of the reported heights of the children in the slots `0 .. i-1`
(an empty slot reports nothing). -/
def heightsBefore (meters : List (Option Meter)) (i : Nat) : Int :=
  ((meters.take i).map fun slot => (slot.map fun m => m.h).getD 0).sum

/-- Settings with every segment of the summary enabled, Celsius, condensed. -/
def sampleSettings : Settings :=
  { showSPUUsage := true, showSPUFrequency := true, showSPUTemperature := true,
    degreeFahrenheit := false, detailedSPUTime := false, countSPUsFromOne := true }

/-- A machine with `n` units, all active. -/
def sampleHost (n : Nat) : Machine :=
  { existingSPUs := n, activeSPUs := n, settings := sampleSettings }

/-- An aggregate meter of the given class name whose pool holds `n` filled
slots, bound to the units `1 .. n`. -/
def sampleParent (name : String) (n : Nat) : ParentMeter :=
  { name := name, mode := 0, h := 1,
    meterData := some { spus := n, meters := (List.range n).map fun i => some (Meter_new (i + 1)) } }

/-- A mode setter under which the height is determined by the mode: four rows
in mode 3, three rows in mode 4, one row otherwise. -/
def sampleSetMode (m : Meter) (mode : Nat) : Meter :=
  { m with mode := mode, h := if mode = 3 then 4 else if mode = 4 then 3 else 1 }

/-- A sample provider: unit 2 is offline (usage -1); any other unit reports
usage 57, frequency 1800 and temperature 41. -/
def sampleProvider (m : Meter) (spu : Nat) : Meter × Double :=
  if spu = 2 then (m, Double.val (-1))
  else
    ({ m with values :=
        (List.replicate 8 (Double.val 0)) ++ [Double.val 1800, Double.val 41] },
     Double.val 57)

/-- Sample collaborators of a build with temperature support; the stand-ins
for `%.1f` and `%5.1f` are exact on the integer samples of `sampleProvider`,
and the stand-in for the Fahrenheit conversion on the samples for which the
three operations are exact (40 gives 104). -/
def sampleExternals : Externals :=
  { Platform_setSPUValues := sampleProvider, CRT_degreeSign := "°",
    BUILD_WITH_SPU_TEMP := true,
    printf_f1 := fun d => match d with
      | Double.val q => toString q.num ++ ".0"
      | _ => "nan"
    printf_5f1 := fun d => match d with
      | Double.val q => fmtInt 3 q.num ++ ".0"
      | _ => "  nan"
    toFahrenheit := fun d => match d with
      | Double.val q => Double.val (q * 9 / 5 + 32)
      | other => other }

/-- A child bound to unit 1 that is online (four current items) with the
given value slots. -/
def sampleMeter (values : List Double) : Meter :=
  { Meter_new 1 with values := values, curItems := 4 }

/-- A machine with `n` units whose settings ask for the detailed display. -/
def sampleHostDetailed (n : Nat) : Machine :=
  { existingSPUs := n, activeSPUs := n,
    settings := { sampleSettings with detailedSPUTime := true } }

/-- Value slots in which the guest sample (slot 6) is valid and the steal
sample (slot 5) and the irq sample (slot 3) are not. -/
def sampleValuesGuest : List Double :=
  [Double.val 1, Double.val 50, Double.val 3, Double.nan, Double.val 0, Double.val (-1),
   Double.val 5, Double.val 2, Double.val 1800, Double.val 41]

/-- Value slots in which the irq sample (slot 3) is valid and the guest sample
(slot 6) is not. -/
def sampleValuesIrq : List Double :=
  [Double.val 1, Double.val 50, Double.val 3, Double.val 7, Double.val 0, Double.val (-1),
   Double.nan, Double.val 2, Double.val 1800, Double.val 41]

/-- The aggregate meter `AllSPUs` after its first init on a machine with two
units: a pool of two slots. -/
def samplePoolOfTwo : ParentMeter :=
  { name := "AllSPUs", mode := 0, h := 1,
    meterData := some
      { spus := 2,
        meters := [some (SPUMeter_init (sampleHost 2) (Meter_new 1)),
                   some (SPUMeter_init (sampleHost 2) (Meter_new 2))] } }

/-- The aggregate meter `AllSPUs2` over five units after the change to mode 3:
children four rows high, three rows of two columns. -/
def sampleParentModed : ParentMeter :=
  { name := "AllSPUs2", mode := 3, h := 12,
    meterData := some
      { spus := 5,
        meters := (List.range 5).map fun i => some (sampleSetMode (Meter_new (i + 1)) 3) } }

/-! ## Range selection: theorems -/

/-- The quotient `(N + 1) / 2` of the source is the ceiling of `N / 2`. -/
theorem half_up_eq_ceil (N : Nat) : (((N + 1) / 2 : Nat) : Int) = ⌈(N : ℚ) / 2⌉ := by
  symm
  rw [Int.ceil_eq_iff]
  have h1 : 2 * ((N + 1) / 2) ≤ N + 1 := by omega
  have h2 : N ≤ 2 * ((N + 1) / 2) := by omega
  have h1q : (2 : ℚ) * (((N + 1) / 2 : Nat) : ℚ) ≤ (N : ℚ) + 1 := by exact_mod_cast h1
  have h2q : (N : ℚ) ≤ 2 * (((N + 1) / 2 : Nat) : ℚ) := by exact_mod_cast h2
  simp only [Int.cast_natCast]
  constructor <;> linarith

theorem getRange_first (host : Machine) (this : ParentMeter)
    (h : this.name.toList.head? = some 'L') :
    AllSPUsMeter_getRange host this = (0, (((host.existingSPUs + 1) / 2 : Nat) : Int)) := by
  simp only [AllSPUsMeter_getRange, h]

theorem getRange_second (host : Machine) (this : ParentMeter)
    (h : this.name.toList.head? = some 'R') :
    AllSPUsMeter_getRange host this =
      ((((host.existingSPUs + 1) / 2 : Nat) : Int),
       (host.existingSPUs : Int) - (((host.existingSPUs + 1) / 2 : Nat) : Int)) := by
  simp only [AllSPUsMeter_getRange, h]

theorem getRange_all (host : Machine) (this : ParentMeter)
    (h : this.name.toList.head? = some 'A') :
    AllSPUsMeter_getRange host this = (0, (host.existingSPUs : Int)) := by
  simp only [AllSPUsMeter_getRange, h]
  rfl

/-- On unit counts up to `INT_MAX` the machine arithmetic of the range selection
does not wrap: it returns the values of the unbounded arithmetic. -/
theorem getRange32_eq (host : Machine) (this : ParentMeter)
    (hN : host.existingSPUs ≤ INT_MAX) :
    AllSPUsMeter_getRange32 host this = AllSPUsMeter_getRange host this := by
  unfold INT_MAX at hN
  have hmod : host.existingSPUs % 4294967296 = host.existingSPUs :=
    Nat.mod_eq_of_lt (by omega)
  have hsucc : (host.existingSPUs + 1) % 4294967296 = host.existingSPUs + 1 :=
    Nat.mod_eq_of_lt (by omega)
  have hhalf : toInt32 ((host.existingSPUs + 1) / 2)
      = (((host.existingSPUs + 1) / 2 : Nat) : Int) := by
    unfold toInt32 INT_MAX
    rw [Nat.mod_eq_of_lt (by omega), if_pos (by omega)]
  have hall : toInt32 host.existingSPUs = (host.existingSPUs : Int) := by
    unfold toInt32 INT_MAX
    rw [hmod, if_pos (by omega)]
  have hdiff : toInt32 (((host.existingSPUs : Int)
        - (((host.existingSPUs + 1) / 2 : Nat) : Int)) % 4294967296).toNat
      = (host.existingSPUs : Int) - (((host.existingSPUs + 1) / 2 : Nat) : Int) := by
    have hsub : (host.existingSPUs : Int) - (((host.existingSPUs + 1) / 2 : Nat) : Int)
        = ((host.existingSPUs - (host.existingSPUs + 1) / 2 : Nat) : Int) := by omega
    rw [hsub]
    have hlt : host.existingSPUs - (host.existingSPUs + 1) / 2 < 4294967296 := by omega
    have hmodInt : ((host.existingSPUs - (host.existingSPUs + 1) / 2 : Nat) : Int) % 4294967296
        = ((host.existingSPUs - (host.existingSPUs + 1) / 2 : Nat) : Int) :=
      Int.emod_eq_of_lt (by omega) (by omega)
    rw [hmodInt, Int.toNat_ofNat]
    unfold toInt32 INT_MAX
    rw [Nat.mod_eq_of_lt hlt, if_pos (by omega)]
  unfold AllSPUsMeter_getRange32 AllSPUsMeter_getRange
  simp only [hmod, hsucc]
  split
  · rw [hhalf]
  · rw [hhalf, hdiff]
  · rw [hall]

/-- Counterexample to C1 as stated for every unit count.  With 4294967295
units, the largest `unsigned int`, `spus + 1` wraps to 0: FirstHalf is
`(0, 0)`, SecondHalf is `(0, -1)`, the two counts sum to -1 and the All range
is `(0, -1)`, not `[0, N)`. -/
theorem getRange32_halves_wrap :
    AllSPUsMeter_getRange32 (sampleHost 4294967295) (sampleParent "LeftSPUs" 0) = (0, 0)
      ∧ AllSPUsMeter_getRange32 (sampleHost 4294967295) (sampleParent "RightSPUs" 0) = (0, -1)
      ∧ AllSPUsMeter_getRange32 (sampleHost 4294967295) (sampleParent "AllSPUs" 0) = (0, -1)
      ∧ (AllSPUsMeter_getRange32 (sampleHost 4294967295) (sampleParent "LeftSPUs" 0)).2
          + (AllSPUsMeter_getRange32 (sampleHost 4294967295) (sampleParent "RightSPUs" 0)).2
          ≠ (((sampleHost 4294967295).existingSPUs : Nat) : Int) := by
  refine ⟨by decide, by decide, by decide, by decide⟩

/-- C1, amended: for every unit count up to `INT_MAX`, the counts of the
FirstHalf ('L') and SecondHalf ('R') ranges sum to the count, SecondHalf starts
where FirstHalf ends, the two index ranges `[start, start + count)` are disjoint
and their union is the All range, which is `[0, N)`. -/
theorem getRange_halves_partition (host : Machine) (l r a : ParentMeter)
    (hN : host.existingSPUs ≤ INT_MAX)
    (hl : l.name.toList.head? = some 'L') (hr : r.name.toList.head? = some 'R')
    (ha : a.name.toList.head? = some 'A') :
    (AllSPUsMeter_getRange32 host l).2 + (AllSPUsMeter_getRange32 host r).2
        = (host.existingSPUs : Int)
      ∧ (AllSPUsMeter_getRange32 host r).1
        = (AllSPUsMeter_getRange32 host l).1 + (AllSPUsMeter_getRange32 host l).2
      ∧ 0 ≤ (AllSPUsMeter_getRange32 host l).2 ∧ 0 ≤ (AllSPUsMeter_getRange32 host r).2
      ∧ AllSPUsMeter_getRange32 host a = (0, (host.existingSPUs : Int))
      ∧ (∀ k : Int,
          ¬ (((AllSPUsMeter_getRange32 host l).1 ≤ k
                ∧ k < (AllSPUsMeter_getRange32 host l).1 + (AllSPUsMeter_getRange32 host l).2)
              ∧ ((AllSPUsMeter_getRange32 host r).1 ≤ k
                ∧ k < (AllSPUsMeter_getRange32 host r).1
                      + (AllSPUsMeter_getRange32 host r).2)))
      ∧ (∀ k : Int,
          ((AllSPUsMeter_getRange32 host a).1 ≤ k
              ∧ k < (AllSPUsMeter_getRange32 host a).1 + (AllSPUsMeter_getRange32 host a).2)
            ↔ (((AllSPUsMeter_getRange32 host l).1 ≤ k
                  ∧ k < (AllSPUsMeter_getRange32 host l).1
                        + (AllSPUsMeter_getRange32 host l).2)
                ∨ ((AllSPUsMeter_getRange32 host r).1 ≤ k
                  ∧ k < (AllSPUsMeter_getRange32 host r).1
                        + (AllSPUsMeter_getRange32 host r).2))) := by
  rw [getRange32_eq host l hN, getRange32_eq host r hN, getRange32_eq host a hN,
    getRange_first host l hl, getRange_second host r hr, getRange_all host a ha]
  have h1 : 2 * ((host.existingSPUs + 1) / 2) ≤ host.existingSPUs + 1 := by omega
  have h2 : (host.existingSPUs + 1) / 2 ≤ host.existingSPUs := by omega
  refine ⟨by simp, by simp, by simp; omega, by simp; omega, rfl, ?_, ?_⟩
  · intro k; simp only; omega
  · intro k; simp only; omega

theorem getRange_halves_partition_witness :
    (5 : Nat) ≤ INT_MAX
      ∧ (AllSPUsMeter_getRange32 ⟨5, 5, ⟨true, true, true, false, false, true⟩⟩
          ⟨"LeftSPUs", 0, 1, none⟩).2
        + (AllSPUsMeter_getRange32 ⟨5, 5, ⟨true, true, true, false, false, true⟩⟩
            ⟨"RightSPUs", 0, 1, none⟩).2 = 5 :=
  ⟨by decide,
   (getRange_halves_partition ⟨5, 5, ⟨true, true, true, false, false, true⟩⟩
    ⟨"LeftSPUs", 0, 1, none⟩ ⟨"RightSPUs", 0, 1, none⟩ ⟨"AllSPUs", 0, 1, none⟩
    (by decide) rfl rfl rfl).1⟩

/-- Counterexample to C2 as stated for every unit count.  With 2147483648
units the All variant returns the count -2147483648, not `N`; with 4294967295
units FirstHalf returns `(0, 0)`, not `(0, ceil(N/2))`, and SecondHalf returns
`(0, -1)`. -/
theorem getRange32_values_wrap :
    AllSPUsMeter_getRange32 (sampleHost 2147483648) (sampleParent "AllSPUs" 0)
        = (0, -2147483648)
      ∧ AllSPUsMeter_getRange32 (sampleHost 4294967295) (sampleParent "LeftSPUs2" 0) = (0, 0)
      ∧ (0 : Int) ≠ ⌈(((sampleHost 4294967295).existingSPUs : Nat) : ℚ) / 2⌉
      ∧ AllSPUsMeter_getRange32 (sampleHost 4294967295) (sampleParent "RightSPUs2" 0)
          = (0, -1) := by
  refine ⟨by decide, by decide, ?_, by decide⟩
  rw [← half_up_eq_ceil]
  decide

/-- C2, amended: for every unit count `N` up to `INT_MAX`, the range is `(0, N)`
for the All variant, `(0, ceil(N/2))` for FirstHalf and
`(ceil(N/2), N - ceil(N/2))` for SecondHalf; with `N = 5` FirstHalf has count 3,
the index range `[0, 3)`. -/
theorem getRange_values (host : Machine) (l r a : ParentMeter)
    (hN : host.existingSPUs ≤ INT_MAX)
    (hl : l.name.toList.head? = some 'L') (hr : r.name.toList.head? = some 'R')
    (ha : a.name.toList.head? = some 'A') :
    AllSPUsMeter_getRange32 host a = (0, (host.existingSPUs : Int))
      ∧ AllSPUsMeter_getRange32 host l = (0, ⌈(host.existingSPUs : ℚ) / 2⌉)
      ∧ AllSPUsMeter_getRange32 host r
          = (⌈(host.existingSPUs : ℚ) / 2⌉,
             (host.existingSPUs : Int) - ⌈(host.existingSPUs : ℚ) / 2⌉)
      ∧ AllSPUsMeter_getRange32 { host with existingSPUs := 5 } l = (0, 3) := by
  refine ⟨?_, ?_, ?_, ?_⟩
  · rw [getRange32_eq host a hN, getRange_all host a ha]
  · rw [getRange32_eq host l hN, getRange_first host l hl, half_up_eq_ceil]
  · rw [getRange32_eq host r hN, getRange_second host r hr, half_up_eq_ceil]
  · have h5 : (5 : Nat) ≤ INT_MAX := by decide
    rw [getRange32_eq _ l h5, getRange_first _ l hl]; simp

theorem getRange_values_witness :
    (5 : Nat) ≤ INT_MAX
      ∧ AllSPUsMeter_getRange32 ⟨5, 5, ⟨true, true, true, false, false, true⟩⟩
          ⟨"LeftSPUs", 0, 1, none⟩ = (0, ⌈((5 : Nat) : ℚ) / 2⌉) :=
  ⟨by decide,
   (getRange_values ⟨5, 5, ⟨true, true, true, false, false, true⟩⟩
    ⟨"LeftSPUs", 0, 1, none⟩ ⟨"RightSPUs", 0, 1, none⟩ ⟨"AllSPUs", 0, 1, none⟩
    (by decide) rfl rfl rfl).2.1⟩

/-! ## Grid layout: theorems -/

/-- On non-negative counts the rows of the source are the floor quotient. -/
theorem gridRows_eq (count ncol : Int) (hc : 0 ≤ count) (hn : 1 ≤ ncol) :
    gridRows count ncol = (count + ncol - 1) / ncol := by
  unfold gridRows
  exact Int.tdiv_eq_ediv (by omega) (by omega)

/-- The rows cover the children: `(nrows - 1) * ncol < count ≤ nrows * ncol`. -/
theorem gridRows_bounds (count ncol : Int) (hc : 0 ≤ count) (hn : 1 ≤ ncol) :
    (gridRows count ncol - 1) * ncol < count ∧ count ≤ gridRows count ncol * ncol := by
  rw [gridRows_eq count ncol hc hn]
  have h1 := Int.ediv_add_emod (count + ncol - 1) ncol
  have h2 := Int.emod_nonneg (count + ncol - 1) (b := ncol) (by omega)
  have h3 := Int.emod_lt_of_pos (count + ncol - 1) (b := ncol) (by omega)
  constructor <;> nlinarith

theorem gridRows_pos (count ncol : Int) (hc : 1 ≤ count) (hn : 1 ≤ ncol) :
    1 ≤ gridRows count ncol := by
  have h := (gridRows_bounds count ncol (by omega) hn).2
  by_contra hlt
  have h0 : gridRows count ncol ≤ 0 := by omega
  nlinarith

theorem gridCell_eq (nrows i : Int) (hr : 0 ≤ nrows) (hi : 0 ≤ i) :
    gridCell nrows i = (i / nrows, i % nrows) := by
  unfold gridCell
  rw [Int.tdiv_eq_ediv hi hr, Int.tmod_eq_emod hi hr]

/-- The rows of the source are the floor quotient and the ceiling of
`count / ncol`. -/
theorem grid_rows_ceil (count ncol : Int) (hc : 1 ≤ count) (hn : 1 ≤ ncol) :
    gridRows count ncol = (count + ncol - 1) / ncol
      ∧ gridRows count ncol = ⌈(count : ℚ) / (ncol : ℚ)⌉ := by
  have hb := gridRows_bounds count ncol (by omega) hn
  refine ⟨gridRows_eq count ncol (by omega) hn, ?_⟩
  symm
  rw [Int.ceil_eq_iff]
  have hnq : (0 : ℚ) < (ncol : ℚ) := by exact_mod_cast (by omega : (0 : Int) < ncol)
  have h1 : ((gridRows count ncol : ℚ) - 1) * (ncol : ℚ) < (count : ℚ) := by
    exact_mod_cast hb.1
  have h2 : (count : ℚ) ≤ (gridRows count ncol : ℚ) * (ncol : ℚ) := by
    exact_mod_cast hb.2
  constructor
  · rw [lt_div_iff₀ hnq]; exact h1
  · rw [div_le_iff₀ hnq]; exact h2

/-- C3: for every column count `ncol ≥ 1` (so for 1, 2, 4 and 8) and every
`count ≥ 1`, with `nrows = (count + ncol - 1) / ncol = ceil(count / ncol)`, the
map `i ↦ (i / nrows, i % nrows)` of `SPUMeterCommonDraw` sends every child
index below `count` to a cell with `column < ncol`, `row < nrows` and
`i = column * nrows + row`, is injective, and is inverted by
`(column, row) ↦ column * nrows + row` on the cells it visits; when
`count ≤ ncol` there is one row and child `i` is alone in column `i`, row 0. -/
theorem grid_index_bijection (count ncol : Int) (hc : 1 ≤ count) (hn : 1 ≤ ncol) :
    gridRows count ncol = (count + ncol - 1) / ncol
      ∧ gridRows count ncol = ⌈(count : ℚ) / (ncol : ℚ)⌉
      ∧ (∀ i : Int, 0 ≤ i → i < count →
          0 ≤ (gridCell (gridRows count ncol) i).1
            ∧ (gridCell (gridRows count ncol) i).1 < ncol
            ∧ 0 ≤ (gridCell (gridRows count ncol) i).2
            ∧ (gridCell (gridRows count ncol) i).2 < gridRows count ncol
            ∧ i = (gridCell (gridRows count ncol) i).1 * gridRows count ncol
                  + (gridCell (gridRows count ncol) i).2)
      ∧ (∀ i j : Int, 0 ≤ i → i < count → 0 ≤ j → j < count →
          gridCell (gridRows count ncol) i = gridCell (gridRows count ncol) j → i = j)
      ∧ (∀ c r : Int, 0 ≤ c → 0 ≤ r → r < gridRows count ncol →
          c * gridRows count ncol + r < count →
          gridCell (gridRows count ncol) (c * gridRows count ncol + r) = (c, r))
      ∧ (count ≤ ncol →
          gridRows count ncol = 1
            ∧ ∀ i : Int, 0 ≤ i → i < count → gridCell (gridRows count ncol) i = (i, 0)) := by
  have hb := gridRows_bounds count ncol (by omega) hn
  have hpos := gridRows_pos count ncol hc hn
  have hcell : ∀ i : Int, 0 ≤ i →
      gridCell (gridRows count ncol) i
        = (i / gridRows count ncol, i % gridRows count ncol) :=
    fun i hi => gridCell_eq _ i (by omega) hi
  refine ⟨gridRows_eq count ncol (by omega) hn, (grid_rows_ceil count ncol hc hn).2,
    ?_, ?_, ?_, ?_⟩
  · intro i hi0 hi
    rw [hcell i hi0]
    refine ⟨Int.ediv_nonneg hi0 (by omega), ?_, Int.emod_nonneg i (by omega),
      Int.emod_lt_of_pos i (by omega), ?_⟩
    · apply Int.ediv_lt_of_lt_mul (by omega)
      have := hb.2
      nlinarith
    · have := Int.ediv_add_emod i (gridRows count ncol)
      simp only
      nlinarith
  · intro i j hi0 _ hj0 _ hij
    rw [hcell i hi0, hcell j hj0] at hij
    have h1 := Int.ediv_add_emod i (gridRows count ncol)
    have h2 := Int.ediv_add_emod j (gridRows count ncol)
    have ha := congrArg Prod.fst hij
    have hb2 := congrArg Prod.snd hij
    simp only at ha hb2
    rw [ha, hb2] at h1
    omega
  · intro c r hc0 hr0 hr _
    have hnn : 0 ≤ c * gridRows count ncol + r := by
      have : 0 ≤ c * gridRows count ncol := Int.mul_nonneg hc0 (by omega)
      omega
    rw [hcell _ hnn]
    have hne : gridRows count ncol ≠ 0 := by omega
    have e1 : (c * gridRows count ncol + r) / gridRows count ncol = c := by
      rw [add_comm, Int.add_mul_ediv_right _ _ hne, Int.ediv_eq_zero_of_lt hr0 hr]; simp
    have e2 : (c * gridRows count ncol + r) % gridRows count ncol = r := by
      rw [add_comm, Int.add_mul_emod_self, Int.emod_eq_of_lt hr0 hr]
    rw [e1, e2]
  · intro hle
    have h1 : gridRows count ncol = 1 := by
      have hlt : gridRows count ncol < 2 := by
        by_contra hge
        have hge2 : 2 ≤ gridRows count ncol := by omega
        have := hb.1
        nlinarith
      omega
    refine ⟨h1, ?_⟩
    intro i hi0 _
    rw [hcell i hi0, h1]
    simp

theorem grid_index_bijection_witness :
    gridRows 4 4 = 1 ∧ ∀ i : Int, 0 ≤ i → i < 4 → gridCell (gridRows 4 4) i = (i, 0) :=
  (grid_index_bijection 4 4 (by decide) (by decide)).2.2.2.2.2 (by decide)

/-- The offset of the source is `colwidth * column + min(column, diff)`. -/
theorem columnOffset_eq (colwidth diff column : Int) :
    columnOffset colwidth diff column = colwidth * column + min column diff := by
  unfold columnOffset
  by_cases h : column > diff
  · simp only [h, if_true]
    rw [min_eq_right (by omega)]
    ring
  · simp only [h, if_false]
    rw [min_eq_left (by omega)]
    ring

/-- The widths consumed by the first `k` columns telescope to the offset of
column `k`. -/
theorem consumedWidth_sum_upto (w ncol : Int) (hw : 0 ≤ w) (k : Nat)
    (hk : (k : Int) + 1 ≤ ncol) :
    ∑ c in Finset.range k, consumedWidth w ncol (c : Int)
      = columnOffset (Int.tdiv w ncol) (Int.tmod w ncol) (k : Int) := by
  induction k with
  | zero =>
    have hm : Int.tmod w ncol = w % ncol := Int.tmod_eq_emod hw (by omega)
    have hr0 : 0 ≤ w % ncol := Int.emod_nonneg w (by omega)
    simp only [Finset.range_zero, Finset.sum_empty, columnOffset_eq, hm]
    rw [min_eq_left (by exact_mod_cast hr0)]
    simp
  | succ k ih =>
    rw [Finset.sum_range_succ, ih (by push_cast at hk; omega)]
    have hlt : (k : Int) + 1 < ncol := by push_cast at hk; omega
    simp only [consumedWidth, hlt, if_true]
    push_cast
    ring

/-- C4: for every `totalWidth ≥ 0` and `columnsPerRow ≥ 1`, with
`baseWidth = totalWidth / columnsPerRow`, `remainder = totalWidth % columnsPerRow`
and `offset(c) = baseWidth * c + min(c, remainder)` as `SPUMeterCommonDraw`
computes it, a non-last column consumes `baseWidth + 1` when `c < remainder` and
`baseWidth` otherwise, the last column consumes `baseWidth`, and the consumed
widths of the `columnsPerRow` columns sum to `totalWidth`; for width 10 and 4
columns the offsets are 0, 3, 6, 8 and the total is 10. -/
theorem consumed_widths_sum (w ncol : Int) (hw : 0 ≤ w) (hn : 1 ≤ ncol) :
    (∀ c : Int, columnOffset (Int.tdiv w ncol) (Int.tmod w ncol) c
        = (w / ncol) * c + min c (w % ncol))
      ∧ (∀ c : Int, 0 ≤ c → c + 1 < ncol →
          consumedWidth w ncol c = if c < w % ncol then w / ncol + 1 else w / ncol)
      ∧ consumedWidth w ncol (ncol - 1) = w / ncol
      ∧ ∑ c in Finset.range ncol.toNat, consumedWidth w ncol (c : Int) = w
      ∧ (List.range 4).map (fun c : Nat =>
            columnOffset (Int.tdiv 10 4) (Int.tmod 10 4) (c : Int)) = [0, 3, 6, 8]
      ∧ ∑ c in Finset.range 4, consumedWidth 10 4 (c : Int) = 10 := by
  have hd : Int.tdiv w ncol = w / ncol := Int.tdiv_eq_ediv hw (by omega)
  have hm : Int.tmod w ncol = w % ncol := Int.tmod_eq_emod hw (by omega)
  have hr0 : 0 ≤ w % ncol := Int.emod_nonneg w (by omega)
  have hr1 : w % ncol < ncol := Int.emod_lt_of_pos w (by omega)
  refine ⟨?_, ?_, ?_, ?_, by decide, by decide⟩
  · intro c
    rw [columnOffset_eq, hd, hm]
  · intro c _ hc
    simp only [consumedWidth, hc, if_true, columnOffset_eq, hd, hm]
    by_cases hlt : c < w % ncol
    · simp only [hlt, if_true]
      rw [min_eq_left (by omega), min_eq_left (by omega)]
      ring
    · simp only [hlt, if_false]
      rw [min_eq_right (by omega), min_eq_right (by omega)]
      ring
  · have hnot : ¬ (ncol - 1 + 1 < ncol) := by omega
    simp only [consumedWidth, hnot, if_false, hd]
  · obtain ⟨m, hm'⟩ : ∃ m : Nat, ncol = (m : Int) + 1 := ⟨(ncol - 1).toNat, by omega⟩
    have htn : ncol.toNat = m + 1 := by omega
    rw [htn, Finset.sum_range_succ, consumedWidth_sum_upto w ncol hw m (by omega)]
    have hnot : ¬ ((m : Int) + 1 < ncol) := by omega
    simp only [consumedWidth, hnot, if_false, columnOffset_eq, hd, hm]
    rw [min_eq_right (by omega)]
    have := Int.ediv_add_emod w ncol
    rw [hm'] at this ⊢
    linarith

theorem consumed_widths_sum_witness :
    ∑ c in Finset.range (4 : Int).toNat, consumedWidth 10 4 (c : Int) = 10 :=
  (consumed_widths_sum 10 4 (by decide) (by decide)).2.2.2.1

/-- A loop whose every iteration appends one element returns the elements in
index order. -/
theorem forLoop_append {α : Type} (f : Nat → α) (body : Nat → List α → Option (List α))
    (n : Nat) (h : ∀ i : Nat, i < n → ∀ acc : List α, body i acc = some (acc ++ [f i]))
    (acc : List α) :
    forLoop body n acc = some (acc ++ (List.range n).map f) := by
  induction n with
  | zero => simp [forLoop]
  | succ n ih =>
    rw [forLoop, ih (fun i hi => h i (Nat.lt_succ_of_lt hi)), Option.some_bind,
      h n (Nat.lt_succ_self n), List.range_succ, List.map_append, List.append_assoc]
    rfl

/-- One iteration of the grid draw on a filled pool issues the call of the
claimed cell. -/
theorem drawSlot_eq (meters : List (Option Meter)) (m0 m : Meter) (x y w ncol count : Int)
    (hc : 1 ≤ count) (hn : 1 ≤ ncol) (hw : 0 ≤ w) (i : Nat)
    (h0 : meters[0]? = some (some m0)) (hi : meters[i]? = some (some m))
    (calls : List DrawCall) :
    drawSlot meters x y (Int.tdiv w ncol) (Int.tmod w ncol) (gridRows count ncol) i calls
      = some (calls ++
          [{ child := i
             x := x + (w / ncol) * ((i : Int) / ((count + ncol - 1) / ncol))
                    + min ((i : Int) / ((count + ncol - 1) / ncol)) (w % ncol)
             y := y + ((i : Int) % ((count + ncol - 1) / ncol)) * m0.h
             w := w / ncol }]) := by
  have hpos := gridRows_pos count ncol hc hn
  have hne : gridRows count ncol ≠ 0 := by omega
  unfold drawSlot
  rw [if_neg hne, h0, hi, gridCell_eq _ _ (by omega) (Int.natCast_nonneg i)]
  simp only [columnOffset_eq, Int.tdiv_eq_ediv hw (show (0 : Int) ≤ ncol by omega),
    Int.tmod_eq_emod hw (show (0 : Int) ≤ ncol by omega),
    gridRows_eq count ncol (show (0 : Int) ≤ count by omega) hn, add_assoc]

/-- C5: for every `count ≥ 1`, `columnsPerRow ≥ 1` and `totalWidth ≥ 0`, on a
pool whose first `count` slots are filled, `SPUMeterCommonDraw` returns and asks
the children `0 .. count-1`, in order, to draw, child `i` at exactly
`(x + baseWidth * column + min(column, remainder), y + row * childHeight,
baseWidth)` with `column = i / nrows`, `row = i % nrows`,
`baseWidth = totalWidth / columnsPerRow`, `remainder = totalWidth % columnsPerRow`
and `childHeight` the height of the first child. -/
theorem draw_calls_exact (host : Machine) (this : ParentMeter) (data : SPUMeterData)
    (m0 : Meter) (x y w ncol : Int)
    (hd : this.meterData = some data)
    (hc : 1 ≤ (AllSPUsMeter_getRange host this).2)
    (hn : 1 ≤ ncol) (hw : 0 ≤ w)
    (h0 : data.meters[0]? = some (some m0))
    (hfull : ∀ i : Nat, (i : Int) < (AllSPUsMeter_getRange host this).2 →
      ∃ m, data.meters[i]? = some (some m)) :
    SPUMeterCommonDraw host this x y w ncol
        = some ((List.range (AllSPUsMeter_getRange host this).2.toNat).map fun i : Nat =>
            { child := i
              x := x + (w / ncol)
                        * ((i : Int) / (((AllSPUsMeter_getRange host this).2 + ncol - 1) / ncol))
                     + min ((i : Int) / (((AllSPUsMeter_getRange host this).2 + ncol - 1) / ncol))
                         (w % ncol)
              y := y + ((i : Int) % (((AllSPUsMeter_getRange host this).2 + ncol - 1) / ncol))
                        * m0.h
              w := w / ncol })
      ∧ ∀ (i : Nat) (calls : List DrawCall), (i : Int) < (AllSPUsMeter_getRange host this).2 →
          SPUMeterCommonDraw host this x y w ncol = some calls →
          calls[i]? = some
            { child := i
              x := x + (w / ncol)
                        * ((i : Int) / (((AllSPUsMeter_getRange host this).2 + ncol - 1) / ncol))
                     + min ((i : Int) / (((AllSPUsMeter_getRange host this).2 + ncol - 1) / ncol))
                         (w % ncol)
              y := y + ((i : Int) % (((AllSPUsMeter_getRange host this).2 + ncol - 1) / ncol))
                        * m0.h
              w := w / ncol } := by
  have hmain : SPUMeterCommonDraw host this x y w ncol
        = some ((List.range (AllSPUsMeter_getRange host this).2.toNat).map fun i : Nat =>
            ({ child := i
               x := x + (w / ncol)
                        * ((i : Int) / (((AllSPUsMeter_getRange host this).2 + ncol - 1) / ncol))
                     + min ((i : Int) / (((AllSPUsMeter_getRange host this).2 + ncol - 1) / ncol))
                         (w % ncol)
               y := y + ((i : Int) % (((AllSPUsMeter_getRange host this).2 + ncol - 1) / ncol))
                        * m0.h
               w := w / ncol } : DrawCall)) := by
    have hne : ncol ≠ 0 := by omega
    unfold SPUMeterCommonDraw
    rw [hd]
    simp only [hne, if_false]
    rw [forLoop_append (fun i : Nat =>
          ({ child := i
             x := x + (w / ncol)
                      * ((i : Int) / (((AllSPUsMeter_getRange host this).2 + ncol - 1) / ncol))
                   + min ((i : Int) / (((AllSPUsMeter_getRange host this).2 + ncol - 1) / ncol))
                       (w % ncol)
             y := y + ((i : Int) % (((AllSPUsMeter_getRange host this).2 + ncol - 1) / ncol))
                      * m0.h
             w := w / ncol } : DrawCall)) _ _ (fun i hi acc => ?_) []]
    · simp
    · obtain ⟨m, hm⟩ := hfull i (by omega)
      exact drawSlot_eq data.meters m0 m x y w ncol _ hc hn hw i h0 hm acc
  refine ⟨hmain, ?_⟩
  intro i calls hi hcalls
  rw [hmain] at hcalls
  have hc' := Option.some.inj hcalls
  rw [← hc', List.getElem?_map, List.getElem?_range (by omega)]
  rfl

/-! ## Mode propagation: theorems -/

/-- A loop that applies `op` to the slots `0 .. n-1` of a pool whose first `n`
slots are filled returns, and changes exactly those slots. -/
theorem forLoop_applySlot (op : Meter → Meter) (n : Nat) (ms : List (Option Meter))
    (hfull : ∀ i : Nat, i < n → ∃ m, ms[i]? = some (some m)) :
    ∃ ms', forLoop (applySlot op) n ms = some ms'
      ∧ ms'.length = ms.length
      ∧ ∀ j : Nat, ms'[j]? = if j < n then (ms[j]?).map (Option.map op) else ms[j]? := by
  induction n with
  | zero => exact ⟨ms, rfl, rfl, fun j => by simp⟩
  | succ n ih =>
    obtain ⟨ms', hrun, hlen, hget⟩ := ih (fun i hi => hfull i (Nat.lt_succ_of_lt hi))
    obtain ⟨m, hm⟩ := hfull n (Nat.lt_succ_self n)
    have hn' : ms'[n]? = some (some m) := by
      rw [hget n, if_neg (Nat.lt_irrefl n), hm]
    have hlt : n < ms'.length := (List.getElem?_eq_some.mp hn').1
    refine ⟨ms'.set n (some (op m)), ?_, ?_, ?_⟩
    · rw [forLoop, hrun, Option.some_bind]
      unfold applySlot
      rw [hn']
    · rw [List.length_set, hlen]
    · intro j
      rw [List.getElem?_set]
      by_cases hj : n = j
      · subst hj
        simp [hlt, hm]
      · rw [if_neg hj, hget j]
        by_cases hjn : j < n
        · have : j < n + 1 := by omega
          simp [hjn, this]
        · have : ¬ j < n + 1 := by omega
          simp [hjn, this]

/-- The range does not depend on the stored mode or height of the meter. -/
theorem getRange_congr (host : Machine) (a b : ParentMeter) (h : a.name = b.name) :
    AllSPUsMeter_getRange host a = AllSPUsMeter_getRange host b := by
  unfold AllSPUsMeter_getRange
  rw [h]

/-- C6: on a meter with a pool and `ncol ≥ 1`, `SPUMeterCommonUpdateMode`
returns with height 1 when the variant's count is 0; when the count is at
least 1, the first `count` slots are filled and the first child's height after
the mode has been applied to it is positive (the assertion of the source), it
returns with height `ceil(count / ncol) * childHeight`, `childHeight` being
that height. -/
theorem updateMode_height (Meter_setMode : Meter → Nat → Meter) (host : Machine)
    (this : ParentMeter) (data : SPUMeterData) (mode : Nat) (ncol : Int)
    (hd : this.meterData = some data) (hn : 1 ≤ ncol) :
    ((AllSPUsMeter_getRange host this).2 = 0 →
        SPUMeterCommonUpdateMode Meter_setMode host this mode ncol
          = some { this with mode := mode, h := 1 })
      ∧ (∀ m0 : Meter, 1 ≤ (AllSPUsMeter_getRange host this).2 →
          (∀ i : Nat, (i : Int) < (AllSPUsMeter_getRange host this).2 →
            ∃ m, data.meters[i]? = some (some m)) →
          data.meters[0]? = some (some m0) →
          0 < (Meter_setMode m0 mode).h →
          ∃ this', SPUMeterCommonUpdateMode Meter_setMode host this mode ncol = some this'
            ∧ this'.h = ⌈((AllSPUsMeter_getRange host this).2 : ℚ) / (ncol : ℚ)⌉
                          * (Meter_setMode m0 mode).h
            ∧ this'.h = (((AllSPUsMeter_getRange host this).2 + ncol - 1) / ncol)
                          * (Meter_setMode m0 mode).h) := by
  have hrange : AllSPUsMeter_getRange host
        { name := this.name, mode := mode, h := this.h, meterData := some data }
      = AllSPUsMeter_getRange host this := getRange_congr host _ _ rfl
  constructor
  · intro h0
    unfold SPUMeterCommonUpdateMode
    rw [hd]
    simp only [hrange, h0, if_true]
  · intro m0 hc hfull h0 hpos
    have hne : (AllSPUsMeter_getRange host this).2 ≠ 0 := by omega
    have hncol : ncol ≠ 0 := by omega
    obtain ⟨ms', hrun, _, hget⟩ := forLoop_applySlot (fun m => Meter_setMode m mode)
      (AllSPUsMeter_getRange host this).2.toNat data.meters
      (fun i hi => hfull i (by omega))
    have h0' : ms'[0]? = some (some (Meter_setMode m0 mode)) := by
      rw [hget 0, if_pos (by omega), h0]
      rfl
    have hrun' : forLoop (setModeSlot Meter_setMode mode)
        (AllSPUsMeter_getRange host this).2.toNat data.meters = some ms' := hrun
    have hrows := (grid_rows_ceil (AllSPUsMeter_getRange host this).2 ncol hc hn)
    refine ⟨{ this with
        mode := mode
        h := (Meter_setMode m0 mode).h
              * Int.tdiv ((AllSPUsMeter_getRange host this).2 + ncol - 1) ncol
        meterData := some { data with meters := ms' } }, ?_, ?_, ?_⟩
    · unfold SPUMeterCommonUpdateMode
      rw [hd]
      simp only [hrange, hne, if_false, hrun', Option.some_bind, h0', hpos, if_true, hncol]
    · simp only
      rw [← hrows.2, mul_comm]
      rfl
    · simp only
      rw [← hrows.1, mul_comm]
      rfl

theorem draw_calls_exact_witness :
    SPUMeterCommonDraw (sampleHost 4) (sampleParent "AllSPUs4" 4) 0 0 10 4
      = some [⟨0, 0, 0, 2⟩, ⟨1, 3, 0, 2⟩, ⟨2, 6, 0, 2⟩, ⟨3, 8, 0, 2⟩] :=
  (draw_calls_exact (sampleHost 4) (sampleParent "AllSPUs4" 4)
    { spus := 4, meters := (List.range 4).map fun i => some (Meter_new (i + 1)) }
    (Meter_new 1) 0 0 10 4 rfl (by decide) (by decide) (by decide) rfl
    (fun i hi => by
      have h4 : (AllSPUsMeter_getRange (sampleHost 4) (sampleParent "AllSPUs4" 4)).2 = 4 := rfl
      rw [h4] at hi
      have hi4 : i < 4 := by omega
      interval_cases i <;> exact ⟨_, rfl⟩)).1

theorem updateMode_height_witness :
    ∃ this', SPUMeterCommonUpdateMode sampleSetMode (sampleHost 5) (sampleParent "AllSPUs2" 5) 3 2
        = some this' ∧ this'.h = 12 :=
  let ⟨this', hrun, _, hh⟩ :=
    (updateMode_height sampleSetMode (sampleHost 5) (sampleParent "AllSPUs2" 5)
      { spus := 5, meters := (List.range 5).map fun i => some (Meter_new (i + 1)) }
      3 2 rfl (by decide)).2 (Meter_new 1) (by decide)
      (fun i hi => by
        have h5 : (AllSPUsMeter_getRange (sampleHost 5) (sampleParent "AllSPUs2" 5)).2 = 5 := rfl
        rw [h5] at hi
        have hi5 : i < 5 := by omega
        interval_cases i <;> exact ⟨_, rfl⟩)
      rfl (by decide)
  ⟨this', hrun, hh.trans (by decide)⟩

/-! ## The pool: theorems -/

/-- The loop of `SPUMeterCommonInit` over a pool of at least `n` slots returns:
it fills the empty slots among the first `n` with a child bound to
`start + i + 1`, re-initialises the filled ones, and logs a construction
exactly for the slots that were empty. -/
theorem forLoop_initSlot (host : Machine) (start : Int) (n : Nat)
    (ms : List (Option Meter)) (ev : List PoolEvent) (hlen : n ≤ ms.length) :
    ∃ ms' ev', forLoop (initSlot host start) n (ms, ev) = some (ms', ev')
      ∧ ms'.length = ms.length
      ∧ (∀ j : Nat, ms'[j]? =
          if j < n then
            (ms[j]?).map fun slot =>
              some (SPUMeter_init host (slot.getD (Meter_new (start + (j : Int) + 1).toNat)))
          else ms[j]?)
      ∧ (∀ e : PoolEvent, e ∈ ev' ↔
          e ∈ ev ∨ ∃ i : Nat, i < n ∧
            (e = PoolEvent.init i
              ∨ (ms[i]? = some none ∧ e = PoolEvent.construct (start + (i : Int) + 1).toNat))) := by
  induction n with
  | zero =>
    refine ⟨ms, ev, rfl, rfl, fun j => by simp, fun e => ?_⟩
    constructor
    · intro h; exact Or.inl h
    · rintro (h | ⟨i, hi, _⟩)
      · exact h
      · omega
  | succ n ih =>
    obtain ⟨ms', ev', hrun, hlen', hget, hev⟩ := ih (by omega)
    have hn' : ms'[n]? = ms[n]? := by rw [hget n, if_neg (Nat.lt_irrefl n)]
    have hlt : n < ms'.length := by omega
    obtain ⟨slot, hslot⟩ : ∃ slot, ms[n]? = some slot :=
      ⟨ms[n], List.getElem?_eq_getElem (by omega)⟩
    have hgetset : ∀ (v : Meter) (j : Nat),
        v = SPUMeter_init host (slot.getD (Meter_new (start + (n : Int) + 1).toNat)) →
        (ms'.set n (some v))[j]? =
          if j < n + 1 then
            (ms[j]?).map fun slot =>
              some (SPUMeter_init host (slot.getD (Meter_new (start + (j : Int) + 1).toNat)))
          else ms[j]? := by
      intro v j hv
      rw [List.getElem?_set]
      by_cases hj : n = j
      · subst hj
        simp [hlt, hslot, hv]
      · rw [if_neg hj, hget j]
        by_cases hjn : j < n
        · have : j < n + 1 := by omega
          simp [hjn, this]
        · have : ¬ j < n + 1 := by omega
          simp [hjn, this]
    cases slot with
    | none =>
      refine ⟨ms'.set n (some (SPUMeter_init host (Meter_new (start + (n : Int) + 1).toNat))),
        ev' ++ [PoolEvent.construct (start + (n : Int) + 1).toNat, PoolEvent.init n],
        ?_, ?_, fun j => hgetset _ j rfl, fun e => ?_⟩
      · rw [forLoop, hrun, Option.some_bind]
        unfold initSlot
        simp only [hn', hslot]
      · rw [List.length_set, hlen']
      · rw [List.mem_append, hev e]
        constructor
        · rintro ((h | ⟨i, hi, h⟩) | h)
          · exact Or.inl h
          · exact Or.inr ⟨i, by omega, h⟩
          · simp only [List.mem_cons, List.mem_singleton, List.not_mem_nil, or_false] at h
            rcases h with h | h
            · exact Or.inr ⟨n, by omega, Or.inr ⟨hslot, h⟩⟩
            · exact Or.inr ⟨n, by omega, Or.inl h⟩
        · rintro (h | ⟨i, hi, h⟩)
          · exact Or.inl (Or.inl h)
          · by_cases hin : i = n
            · subst hin
              rcases h with h | ⟨_, h⟩
              · exact Or.inr (by simp [h])
              · exact Or.inr (by simp [h])
            · exact Or.inl (Or.inr ⟨i, by omega, h⟩)
    | some m =>
      refine ⟨ms'.set n (some (SPUMeter_init host m)), ev' ++ [PoolEvent.init n],
        ?_, ?_, fun j => hgetset _ j rfl, fun e => ?_⟩
      · rw [forLoop, hrun, Option.some_bind]
        unfold initSlot
        simp only [hn', hslot]
      · rw [List.length_set, hlen']
      · rw [List.mem_append, hev e]
        constructor
        · rintro ((h | ⟨i, hi, h⟩) | h)
          · exact Or.inl h
          · exact Or.inr ⟨i, by omega, h⟩
          · simp only [List.mem_singleton] at h
            exact Or.inr ⟨n, by omega, Or.inl h⟩
        · rintro (h | ⟨i, hi, h⟩)
          · exact Or.inl (Or.inl h)
          · by_cases hin : i = n
            · subst hin
              rcases h with h | ⟨h1, _⟩
              · exact Or.inr (by simp [h])
              · rw [hslot] at h1
                exact absurd h1 (by simp)
            · exact Or.inl (Or.inr ⟨i, by omega, h⟩)

theorem getRange_nonneg (host : Machine) (this : ParentMeter) :
    0 ≤ (AllSPUsMeter_getRange host this).1 ∧ 0 ≤ (AllSPUsMeter_getRange host this).2 := by
  have h2 : (host.existingSPUs + 1) / 2 ≤ host.existingSPUs := by omega
  unfold AllSPUsMeter_getRange
  split <;> simp <;> omega

theorem SPUMeter_init_param (host : Machine) (m : Meter) :
    (SPUMeter_init host m).param = m.param := by
  unfold SPUMeter_init
  by_cases h0 : m.param = 0
  · simp [h0]
  · by_cases h1 : host.activeSPUs > 1
    · simp [h0, h1]
    · simp [h0, h1]

theorem SPUMeter_init_idem (host : Machine) (m : Meter) :
    SPUMeter_init host (SPUMeter_init host m) = SPUMeter_init host m := by
  unfold SPUMeter_init
  by_cases h0 : m.param = 0
  · simp [h0]
  · by_cases h1 : host.activeSPUs > 1
    · simp [h0, h1]
    · simp [h0, h1]

/-- The init call on a meter without a pool: the allocation, then the loop. -/
theorem SPUMeterCommonInit_none (host : Machine) (this : ParentMeter)
    (h : this.meterData = none) :
    SPUMeterCommonInit host this
      = (forLoop (initSlot host (AllSPUsMeter_getRange host this).1)
            (AllSPUsMeter_getRange host this).2.toNat
            (List.replicate (AllSPUsMeter_getRange host this).2.toNat none,
             if (AllSPUsMeter_getRange host this).2 ≠ 0 then
               [PoolEvent.allocData,
                PoolEvent.allocSlots (AllSPUsMeter_getRange host this).2.toNat]
             else [PoolEvent.allocData])).map fun st =>
          ({ this with meterData := some { spus := host.existingSPUs, meters := st.1 } }, st.2) := by
  unfold SPUMeterCommonInit
  rw [h]

/-- The init call on a meter with a pool: the loop alone. -/
theorem SPUMeterCommonInit_some (host : Machine) (this : ParentMeter) (data : SPUMeterData)
    (h : this.meterData = some data) :
    SPUMeterCommonInit host this
      = (forLoop (initSlot host (AllSPUsMeter_getRange host this).1)
            (AllSPUsMeter_getRange host this).2.toNat (data.meters, [])).map fun st =>
          ({ this with meterData := some { data with meters := st.1 } }, st.2) := by
  unfold SPUMeterCommonInit
  rw [h]

/-- The loop of `SPUMeterCommonInit` returns only when the pool has a slot for
every index it visits. -/
theorem forLoop_initSlot_length (host : Machine) (start : Int) (n : Nat)
    (ms : List (Option Meter)) (ev : List PoolEvent)
    (st : List (Option Meter) × List PoolEvent)
    (h : forLoop (initSlot host start) n (ms, ev) = some st) : n ≤ ms.length := by
  induction n generalizing st with
  | zero => exact Nat.zero_le _
  | succ n ih =>
    rw [forLoop] at h
    cases hrun : forLoop (initSlot host start) n (ms, ev) with
    | none => rw [hrun] at h; exact absurd h (by simp)
    | some st' =>
      have hle := ih st' hrun
      obtain ⟨ms', ev', hrun', hlen', _, _⟩ := forLoop_initSlot host start n ms ev hle
      rw [hrun', Option.some_bind] at h
      by_contra hcon
      have hnone : ms'[n]? = none := List.getElem?_eq_none (by omega)
      unfold initSlot at h
      simp only [hnone] at h
      exact absurd h (by simp)

/-- The init call on a pool with a slot for every index of the range: it
allocates nothing, constructs a child exactly for the empty slots, bound to
`offset + i + 1`, and leaves the filled slots bound to their child. -/
theorem init_on_pool (host : Machine) (this : ParentMeter) (data : SPUMeterData)
    (hd : this.meterData = some data)
    (hlen : (AllSPUsMeter_getRange host this).2.toNat ≤ data.meters.length) :
    ∃ data' events,
      SPUMeterCommonInit host this = some ({ this with meterData := some data' }, events)
      ∧ data'.spus = data.spus
      ∧ data'.meters.length = data.meters.length
      ∧ PoolEvent.allocData ∉ events
      ∧ (∀ k : Nat, PoolEvent.allocSlots k ∉ events)
      ∧ (∀ p : Nat, PoolEvent.construct p ∈ events ↔
          ∃ i : Nat, (i : Int) < (AllSPUsMeter_getRange host this).2
            ∧ data.meters[i]? = some none
            ∧ (p : Int) = (AllSPUsMeter_getRange host this).1 + (i : Int) + 1)
      ∧ (∀ (i : Nat) (m : Meter), (i : Int) < (AllSPUsMeter_getRange host this).2 →
          data.meters[i]? = some (some m) →
          data'.meters[i]? = some (some (SPUMeter_init host m))
            ∧ (SPUMeter_init host m).param = m.param)
      ∧ (∀ i : Nat, (i : Int) < (AllSPUsMeter_getRange host this).2 →
          data.meters[i]? = some none →
          ∃ m, data'.meters[i]? = some (some m)
            ∧ (m.param : Int) = (AllSPUsMeter_getRange host this).1 + (i : Int) + 1)
      ∧ (∀ i : Nat, (AllSPUsMeter_getRange host this).2 ≤ (i : Int) →
          data'.meters[i]? = data.meters[i]?) := by
  obtain ⟨hs, hc⟩ := getRange_nonneg host this
  obtain ⟨ms', ev', hrun, hlen', hget, hev⟩ :=
    forLoop_initSlot host (AllSPUsMeter_getRange host this).1
      (AllSPUsMeter_getRange host this).2.toNat data.meters [] hlen
  refine ⟨{ data with meters := ms' }, ev', ?_, rfl, hlen', ?_, ?_, ?_, ?_, ?_, ?_⟩
  · rw [SPUMeterCommonInit_some host this data hd, hrun]
    rfl
  · intro hmem
    rcases (hev _).mp hmem with h | ⟨i, _, h | ⟨_, h⟩⟩
    · exact absurd h (List.not_mem_nil _)
    · exact absurd h (by simp)
    · exact absurd h (by simp)
  · intro k hmem
    rcases (hev _).mp hmem with h | ⟨i, _, h | ⟨_, h⟩⟩
    · exact absurd h (List.not_mem_nil _)
    · exact absurd h (by simp)
    · exact absurd h (by simp)
  · intro p
    rw [hev]
    constructor
    · rintro (h | ⟨i, hi, h | ⟨hnone, h⟩⟩)
      · exact absurd h (List.not_mem_nil _)
      · exact absurd h (by simp)
      · refine ⟨i, by omega, hnone, ?_⟩
        have hp : p = ((AllSPUsMeter_getRange host this).1 + (i : Int) + 1).toNat :=
          PoolEvent.construct.inj h
        omega
    · rintro ⟨i, hi, hnone, hp⟩
      refine Or.inr ⟨i, by omega, Or.inr ⟨hnone, ?_⟩⟩
      have : p = ((AllSPUsMeter_getRange host this).1 + (i : Int) + 1).toNat := by omega
      rw [this]
  · intro i m hi hm
    refine ⟨?_, SPUMeter_init_param host m⟩
    show ms'[i]? = _
    rw [hget i, if_pos (by omega), hm]
    rfl
  · intro i hi hnone
    refine ⟨SPUMeter_init host
        (Meter_new ((AllSPUsMeter_getRange host this).1 + (i : Int) + 1).toNat), ?_, ?_⟩
    · show ms'[i]? = _
      rw [hget i, if_pos (by omega), hnone]
      rfl
    · rw [SPUMeter_init_param]
      show ((((AllSPUsMeter_getRange host this).1 + (i : Int) + 1).toNat : Nat) : Int) = _
      omega
  · intro i hi
    show ms'[i]? = _
    rw [hget i, if_neg (by omega)]

/-- A second init call after a call that returned changes nothing and only
re-initialises the children. -/
theorem init_second_call (host : Machine) (this this1 : ParentMeter) (ev1 : List PoolEvent)
    (h1 : SPUMeterCommonInit host this = some (this1, ev1)) :
    ∃ ev2, SPUMeterCommonInit host this1 = some (this1, ev2)
      ∧ ∀ e ∈ ev2, ∃ i : Nat, e = PoolEvent.init i := by
  -- the pool after the first call
  have hfirst : ∃ (data0 : SPUMeterData) (ms0 : List (Option Meter)) (ev0 : List PoolEvent)
      (ms1 : List (Option Meter)),
      forLoop (initSlot host (AllSPUsMeter_getRange host this).1)
          (AllSPUsMeter_getRange host this).2.toNat (ms0, ev0) = some (ms1, ev1)
        ∧ this1 = { this with meterData := some { data0 with meters := ms1 } } := by
    cases hmd : this.meterData with
    | none =>
      rw [SPUMeterCommonInit_none host this hmd] at h1
      cases hrun : forLoop (initSlot host (AllSPUsMeter_getRange host this).1)
          (AllSPUsMeter_getRange host this).2.toNat
          (List.replicate (AllSPUsMeter_getRange host this).2.toNat none,
           if (AllSPUsMeter_getRange host this).2 ≠ 0 then
             [PoolEvent.allocData,
              PoolEvent.allocSlots (AllSPUsMeter_getRange host this).2.toNat]
           else [PoolEvent.allocData]) with
      | none => rw [hrun] at h1; exact absurd h1 (by simp)
      | some st =>
        rw [hrun] at h1
        have h1' := Option.some.inj h1
        have ha := congrArg Prod.fst h1'
        have hb := congrArg Prod.snd h1'
        simp only at ha hb
        refine ⟨{ spus := host.existingSPUs, meters := [] },
          List.replicate (AllSPUsMeter_getRange host this).2.toNat none,
          (if (AllSPUsMeter_getRange host this).2 ≠ 0 then
             [PoolEvent.allocData,
              PoolEvent.allocSlots (AllSPUsMeter_getRange host this).2.toNat]
           else [PoolEvent.allocData]), st.1, ?_, ha.symm⟩
        rw [hrun, ← hb]
    | some data =>
      rw [SPUMeterCommonInit_some host this data hmd] at h1
      cases hrun : forLoop (initSlot host (AllSPUsMeter_getRange host this).1)
          (AllSPUsMeter_getRange host this).2.toNat (data.meters, []) with
      | none => rw [hrun] at h1; exact absurd h1 (by simp)
      | some st =>
        rw [hrun] at h1
        have h1' := Option.some.inj h1
        have ha := congrArg Prod.fst h1'
        have hb := congrArg Prod.snd h1'
        simp only at ha hb
        refine ⟨data, data.meters, [], st.1, ?_, ha.symm⟩
        rw [hrun, ← hb]
  obtain ⟨data0, ms0, ev0, ms1, hrun1, hthis1⟩ := hfirst
  have hle := forLoop_initSlot_length host _ _ ms0 ev0 _ hrun1
  obtain ⟨ms1', ev1', hrun1', hlen1, hget1, _⟩ :=
    forLoop_initSlot host (AllSPUsMeter_getRange host this).1
      (AllSPUsMeter_getRange host this).2.toNat ms0 ev0 hle
  have hms : ms1' = ms1 := by
    have := hrun1'.symm.trans hrun1
    exact congrArg Prod.fst (Option.some.inj this)
  subst hms
  have hrange : AllSPUsMeter_getRange host this1 = AllSPUsMeter_getRange host this :=
    getRange_congr host _ _ (by rw [hthis1])
  have hfilled : ∀ j : Nat, j < (AllSPUsMeter_getRange host this).2.toNat →
      ∃ m, ms1'[j]? = some (some (SPUMeter_init host m)) := by
    intro j hj
    obtain ⟨slot, hslot⟩ : ∃ slot, ms0[j]? = some slot :=
      ⟨ms0[j], List.getElem?_eq_getElem (by omega)⟩
    exact ⟨_, by rw [hget1 j, if_pos hj, hslot]; rfl⟩
  obtain ⟨ms2, ev2, hrun2, _, hget2, hev2⟩ :=
    forLoop_initSlot host (AllSPUsMeter_getRange host this).1
      (AllSPUsMeter_getRange host this).2.toNat ms1' [] (by omega)
  have hsame : ms2 = ms1' := by
    apply List.ext_getElem?
    intro j
    rw [hget2 j]
    by_cases hj : j < (AllSPUsMeter_getRange host this).2.toNat
    · obtain ⟨m, hm⟩ := hfilled j hj
      rw [if_pos hj, hm]
      simp [SPUMeter_init_idem]
    · rw [if_neg hj]
  refine ⟨ev2, ?_, ?_⟩
  · have hmd1 : this1.meterData = some { data0 with meters := ms1' } := by rw [hthis1]
    rw [SPUMeterCommonInit_some host this1 _ hmd1, hrange, hrun2, hsame, hthis1]
    rfl
  · intro e he
    rcases (hev2 e).mp he with h | ⟨i, hi, h | ⟨hnone, _⟩⟩
    · exact absurd h (List.not_mem_nil _)
    · exact ⟨i, h⟩
    · obtain ⟨m, hm⟩ := hfilled i hi
      rw [hm] at hnone
      exact absurd hnone (by simp)

/-- C8: `SPUMeterCommonInit` is idempotent on the pool.  With the unit count
unchanged, a second call after a call that returned allocates nothing,
constructs no child, only re-initialises the children, and returns the very
same meter: every slot holds the same child with the same `UnitIndex`.  On a
pool with a slot for every index of the range (partial prior construction
included) the call returns without allocating, keeps every filled slot bound to
its child and its `UnitIndex`, constructs a child exactly for the empty slots,
and fills empty slot `i` with a child bound to `offset + i + 1`. -/
theorem init_idempotent (host : Machine) (this : ParentMeter) :
    (∀ (this1 : ParentMeter) (ev1 : List PoolEvent),
        SPUMeterCommonInit host this = some (this1, ev1) →
        ∃ ev2, SPUMeterCommonInit host this1 = some (this1, ev2)
          ∧ ∀ e ∈ ev2, ∃ i : Nat, e = PoolEvent.init i)
      ∧ (∀ data : SPUMeterData, this.meterData = some data →
          (AllSPUsMeter_getRange host this).2.toNat ≤ data.meters.length →
          ∃ data' events,
            SPUMeterCommonInit host this = some ({ this with meterData := some data' }, events)
            ∧ data'.spus = data.spus
            ∧ data'.meters.length = data.meters.length
            ∧ PoolEvent.allocData ∉ events
            ∧ (∀ k : Nat, PoolEvent.allocSlots k ∉ events)
            ∧ (∀ p : Nat, PoolEvent.construct p ∈ events ↔
                ∃ i : Nat, (i : Int) < (AllSPUsMeter_getRange host this).2
                  ∧ data.meters[i]? = some none
                  ∧ (p : Int) = (AllSPUsMeter_getRange host this).1 + (i : Int) + 1)
            ∧ (∀ (i : Nat) (m : Meter), (i : Int) < (AllSPUsMeter_getRange host this).2 →
                data.meters[i]? = some (some m) →
                data'.meters[i]? = some (some (SPUMeter_init host m))
                  ∧ (SPUMeter_init host m).param = m.param)
            ∧ (∀ i : Nat, (i : Int) < (AllSPUsMeter_getRange host this).2 →
                data.meters[i]? = some none →
                ∃ m, data'.meters[i]? = some (some m)
                  ∧ (m.param : Int) = (AllSPUsMeter_getRange host this).1 + (i : Int) + 1)
            ∧ (∀ i : Nat, (AllSPUsMeter_getRange host this).2 ≤ (i : Int) →
                data'.meters[i]? = data.meters[i]?)) :=
  ⟨fun this1 ev1 h1 => init_second_call host this this1 ev1 h1,
   fun data hd hlen => init_on_pool host this data hd hlen⟩

theorem init_idempotent_witness :
    ∃ ev2,
      SPUMeterCommonInit (sampleHost 2)
          { name := "AllSPUs", mode := 0, h := 1,
            meterData := some
              { spus := 2,
                meters := [some (SPUMeter_init (sampleHost 2) (Meter_new 1)),
                           some (SPUMeter_init (sampleHost 2) (Meter_new 2))] } }
        = some
          ({ name := "AllSPUs", mode := 0, h := 1,
             meterData := some
               { spus := 2,
                 meters := [some (SPUMeter_init (sampleHost 2) (Meter_new 1)),
                            some (SPUMeter_init (sampleHost 2) (Meter_new 2))] } }, ev2)
      ∧ ∀ e ∈ ev2, ∃ i : Nat, e = PoolEvent.init i :=
  (init_idempotent (sampleHost 2)
      { name := "AllSPUs", mode := 0, h := 1, meterData := none }).1
    { name := "AllSPUs", mode := 0, h := 1,
      meterData := some
        { spus := 2,
          meters := [some (SPUMeter_init (sampleHost 2) (Meter_new 1)),
                     some (SPUMeter_init (sampleHost 2) (Meter_new 2))] } }
    [PoolEvent.allocData, PoolEvent.allocSlots 2, PoolEvent.construct 1, PoolEvent.init 0,
     PoolEvent.construct 2, PoolEvent.init 1]
    rfl

/-! ## The per-unit summary: theorems -/

/-- Appending keeps the last character away from `e` when both parts do. -/
theorem last_ne_append (a b : String) (ha : a.data.getLast? ≠ some 'e')
    (hb : b.data.getLast? ≠ some 'e') : (a ++ b).data.getLast? ≠ some 'e' := by
  rw [String.data_append, List.getLast?_append]
  cases hbl : b.data.getLast? with
  | none => simpa using ha
  | some c =>
    rw [hbl] at hb
    simpa using hb

theorem usageSegment_last (ext : Externals) (percent : Double) :
    (usageSegment ext percent).data.getLast? ≠ some 'e' := by
  simp [usageSegment, String.data_append]

theorem frequencySegment_last (f : Double) :
    (frequencySegment f).data.getLast? ≠ some 'e' := by
  unfold frequencySegment
  split
  · simp [String.data_append]
  · decide

theorem temperatureSegment_last (ext : Externals) (settings : Settings) (t : Double) :
    (temperatureSegment ext settings t).data.getLast? ≠ some 'e' := by
  unfold temperatureSegment
  split
  · decide
  · split <;> simp [String.data_append]

theorem ite_last_ne (c : Prop) [Decidable c] (a b : String)
    (ha : a.data.getLast? ≠ some 'e') (hb : b.data.getLast? ≠ some 'e') :
    (if c then a else b).data.getLast? ≠ some 'e' := by
  split
  · exact ha
  · exact hb

/-- The summary of an online unit is never the text `"offline"`. -/
theorem summaryText_ne_offline (ext : Externals) (settings : Settings) (this : Meter)
    (percent : Double) : summaryText ext settings this percent ≠ "offline" := by
  have hempty : ("" : String).data.getLast? ≠ some 'e' := by decide
  have hsp : (" " : String).data.getLast? ≠ some 'e' := by decide
  have hlast : (summaryText ext settings this percent).data.getLast? ≠ some 'e' := by
    unfold summaryText
    exact last_ne_append _ _ (last_ne_append _ _ (last_ne_append _ _ (last_ne_append _ _
      (ite_last_ne _ _ _ (usageSegment_last ext percent) hempty)
      (ite_last_ne _ _ _ hsp hempty))
      (ite_last_ne _ _ _ (frequencySegment_last _) hempty))
      (ite_last_ne _ _ _ hsp hempty))
      (ite_last_ne _ _ _ (temperatureSegment_last ext settings _) hempty)
  intro h
  rw [h] at hlast
  exact hlast (by decide)

/-- The text of an offline unit: the provider's percent is not a valid
non-negative number. -/
theorem updateValues_offline (ext : Externals) (host : Machine) (this m' : Meter)
    (percent : Double)
    (hfetch : ext.Platform_setSPUValues
        { this with values := List.replicate 10 (Double.val 0) } this.param = (m', percent))
    (hpres : this.param ≤ host.existingSPUs) (h : isNonnegative percent = false) :
    SPUMeter_updateValues ext host this = { m' with txtBuffer := "offline" } := by
  have hnot : ¬ (this.param > host.existingSPUs) := by omega
  have hfetch' : ext.Platform_setSPUValues
      { param := this.param, h := this.h, mode := this.mode, caption := this.caption,
        values := List.replicate SPU_METER_ITEMCOUNT (Double.val 0), curItems := this.curItems,
        txtBuffer := this.txtBuffer } this.param = (m', percent) := hfetch
  unfold SPUMeter_updateValues
  simp only [hnot, if_false, hfetch', h]
  rfl

/-- The text of a present, online unit is the summary. -/
theorem updateValues_online (ext : Externals) (host : Machine) (this m' : Meter)
    (percent : Double)
    (hfetch : ext.Platform_setSPUValues
        { this with values := List.replicate 10 (Double.val 0) } this.param = (m', percent))
    (hpres : this.param ≤ host.existingSPUs) (h : isNonnegative percent = true) :
    SPUMeter_updateValues ext host this
      = { m' with txtBuffer := summaryText ext host.settings m' percent } := by
  have hnot : ¬ (this.param > host.existingSPUs) := by omega
  have hfetch' : ext.Platform_setSPUValues
      { param := this.param, h := this.h, mode := this.mode, caption := this.caption,
        values := List.replicate SPU_METER_ITEMCOUNT (Double.val 0), curItems := this.curItems,
        txtBuffer := this.txtBuffer } this.param = (m', percent) := hfetch
  unfold SPUMeter_updateValues
  simp only [hnot, if_false, hfetch', h]
  rfl

/-- C9: `SPUMeter_updateValues` writes `"absent"` whenever the `UnitIndex` of
the child is greater than `existingSPUs`, whatever the sample provider would
report: the provider is not consulted and all ten value slots are zero.
Otherwise, with `(m', percent)` what the provider returns on the zeroed meter,
it writes `"offline"` exactly when the fetched usage percent is not a valid
non-negative number (as -1 is not), and the Normal summary exactly when the
percent is non-negative. -/
theorem updateValues_states (ext : Externals) (host : Machine) (this m' : Meter)
    (percent : Double)
    (hfetch : ext.Platform_setSPUValues
        { this with values := List.replicate 10 (Double.val 0) } this.param = (m', percent)) :
    (this.param > host.existingSPUs →
        SPUMeter_updateValues ext host this
            = { this with values := List.replicate 10 (Double.val 0), txtBuffer := "absent" }
          ∧ ∀ ext' : Externals,
              SPUMeter_updateValues ext' host this = SPUMeter_updateValues ext host this)
      ∧ (this.param ≤ host.existingSPUs →
          (isNonnegative percent = false →
              SPUMeter_updateValues ext host this = { m' with txtBuffer := "offline" })
            ∧ (isNonnegative percent = true →
                SPUMeter_updateValues ext host this
                  = { m' with txtBuffer := summaryText ext host.settings m' percent })
            ∧ ((SPUMeter_updateValues ext host this).txtBuffer = "offline" ↔
                isNonnegative percent = false))
      ∧ isNonnegative (Double.val (-1)) = false
      ∧ isNonnegative Double.nan = false := by
  have habsent : ∀ e : Externals, this.param > host.existingSPUs →
      SPUMeter_updateValues e host this
        = { this with values := List.replicate 10 (Double.val 0), txtBuffer := "absent" } := by
    intro e habs
    unfold SPUMeter_updateValues
    simp only [habs, if_true]
    rfl
  refine ⟨fun habs => ⟨habsent ext habs, fun e => (habsent e habs).trans (habsent ext habs).symm⟩,
    ?_, by decide, by decide⟩
  intro hpres
  have hoff := updateValues_offline ext host this m' percent hfetch hpres
  have hon := updateValues_online ext host this m' percent hfetch hpres
  refine ⟨hoff, hon, ?_⟩
  constructor
  · intro htxt
    by_contra hne
    have hpos : isNonnegative percent = true := by simpa using hne
    rw [hon hpos] at htxt
    exact summaryText_ne_offline _ _ _ _ htxt
  · intro h
    rw [hoff h]

theorem updateValues_states_witness :
    SPUMeter_updateValues sampleExternals (sampleHost 4) (Meter_new 2)
      = { Meter_new 2 with txtBuffer := "offline" } :=
  ((updateValues_states sampleExternals (sampleHost 4) (Meter_new 2) (Meter_new 2)
    (Double.val (-1)) rfl).2.1 (by decide)).1 (by decide)

theorem usageSegment_ne_empty (ext : Externals) (percent : Double) :
    usageSegment ext percent ≠ "" := by
  intro h
  have := congrArg String.data h
  simp [usageSegment, String.data_append] at this

theorem frequencySegment_ne_empty (f : Double) : frequencySegment f ≠ "" := by
  intro h
  have := congrArg String.data h
  unfold frequencySegment at this
  split at this
  · simp [String.data_append] at this
  · exact absurd this (by decide)

theorem temperatureSegment_ne_empty (ext : Externals) (settings : Settings) (t : Double) :
    temperatureSegment ext settings t ≠ "" := by
  intro h
  have := congrArg String.data h
  unfold temperatureSegment at this
  split at this
  · exact absurd this (by decide)
  · split at this <;> simp [String.data_append] at this

/-- The five-part text of the source, on three segments that are non-empty
when enabled, is the enabled segments joined by single spaces. -/
theorem join_segments (U F T : String) (hu : U ≠ "") (hf : F ≠ "") (ht : T ≠ "")
    (bu bf bt : Bool) :
    (if bu then U else "")
        ++ (if (if bu then U else "") ≠ ""
              ∧ ((if bf then F else "") ≠ "" ∨ (if bt then T else "") ≠ "")
            then " " else "")
        ++ (if bf then F else "")
        ++ (if (if bf then F else "") ≠ "" ∧ (if bt then T else "") ≠ "" then " " else "")
        ++ (if bt then T else "")
      = String.intercalate " "
          ((if bu then [U] else []) ++ (if bf then [F] else []) ++ (if bt then [T] else [])) := by
  cases bu <;> cases bf <;> cases bt <;>
    simp [hu, hf, ht, String.intercalate, String.intercalate.go]

/-- C10: for a present, online unit (in a build with temperature support, where
the show-temperature flag is read) and every combination of the show-usage,
show-frequency and show-temperature flags, the text written by
`SPUMeter_updateValues` is the enabled segments, in the order usage, frequency,
temperature, joined by exactly one space between consecutive segments; an
enabled segment is never empty, a disabled one contributes nothing, and with
all flags disabled the text is empty. -/
theorem updateValues_summary (ext : Externals) (host : Machine) (this m' : Meter)
    (percent : Double)
    (hbuild : ext.BUILD_WITH_SPU_TEMP = true)
    (hfetch : ext.Platform_setSPUValues
        { this with values := List.replicate 10 (Double.val 0) } this.param = (m', percent))
    (hpres : this.param ≤ host.existingSPUs) (hon : isNonnegative percent = true) :
    (SPUMeter_updateValues ext host this).txtBuffer
        = String.intercalate " "
            ((if host.settings.showSPUUsage then [usageSegment ext percent] else [])
              ++ (if host.settings.showSPUFrequency then
                    [frequencySegment (m'.values.getD SPU_METER_FREQUENCY (Double.val 0))]
                  else [])
              ++ (if host.settings.showSPUTemperature then
                    [temperatureSegment ext host.settings
                      (m'.values.getD SPU_METER_TEMPERATURE (Double.val 0))]
                  else []))
      ∧ usageSegment ext percent ≠ ""
      ∧ frequencySegment (m'.values.getD SPU_METER_FREQUENCY (Double.val 0)) ≠ ""
      ∧ temperatureSegment ext host.settings
          (m'.values.getD SPU_METER_TEMPERATURE (Double.val 0)) ≠ ""
      ∧ (host.settings.showSPUUsage = false → host.settings.showSPUFrequency = false →
          host.settings.showSPUTemperature = false →
          (SPUMeter_updateValues ext host this).txtBuffer = "") := by
  have hu := usageSegment_ne_empty ext percent
  have hf := frequencySegment_ne_empty (m'.values.getD SPU_METER_FREQUENCY (Double.val 0))
  have ht := temperatureSegment_ne_empty ext host.settings
    (m'.values.getD SPU_METER_TEMPERATURE (Double.val 0))
  have htxt : (SPUMeter_updateValues ext host this).txtBuffer
      = summaryText ext host.settings m' percent := by
    rw [updateValues_online ext host this m' percent hfetch hpres hon]
  refine ⟨?_, hu, hf, ht, ?_⟩
  · rw [htxt]
    unfold summaryText
    rw [hbuild]
    simp only [Bool.true_and]
    exact join_segments _ _ _ hu hf ht _ _ _
  · intro hU hF hT
    rw [htxt]
    unfold summaryText
    simp [hU, hF, hT]

theorem updateValues_summary_witness :
    (SPUMeter_updateValues sampleExternals (sampleHost 4) (Meter_new 3)).txtBuffer
      = "57.0% 1800MHz 41°C" :=
  ((updateValues_summary sampleExternals (sampleHost 4) (Meter_new 3)
    { Meter_new 3 with values :=
        (List.replicate 8 (Double.val 0)) ++ [Double.val 1800, Double.val 41] }
    (Double.val 57) rfl rfl (by decide) (by decide)).1).trans (by decide)

/-! ## Range selection: the default and the empty machine -/

/-- Counterexample to C13 as stated for every unit count.  The meter named
`SPU` has an unrecognized tag; with 2147483648 units the default branch stores
the count -2147483648, with 4294967295 units the count -1, not `N`. -/
theorem getRange32_default_wrap :
    AllSPUsMeter_getRange32 (sampleHost 2147483648)
        { name := "SPU", mode := 0, h := 1, meterData := none } = (0, -2147483648)
      ∧ AllSPUsMeter_getRange32 (sampleHost 4294967295)
          { name := "SPU", mode := 0, h := 1, meterData := none } = (0, -1)
      ∧ AllSPUsMeter_getRange32 (sampleHost 2147483648)
          { name := "", mode := 0, h := 1, meterData := none } = (0, -2147483648) := by
  refine ⟨by decide, by decide, by decide⟩

/-- C13, amended: for every meter whose variant tag is unrecognized (the first
character of its name is none of 'A', 'L', 'R', or the name is empty),
`AllSPUsMeter_getRange` selects the All subset: it returns `(0, N)` for every
unit count `N` up to `INT_MAX`.  The first character being neither 'L' nor 'R'
is all the proof uses. -/
theorem getRange_default (host : Machine) (this : ParentMeter)
    (hN : host.existingSPUs ≤ INT_MAX)
    (hL : this.name.toList.head? ≠ some 'L') (hR : this.name.toList.head? ≠ some 'R') :
    AllSPUsMeter_getRange32 host this = (0, (host.existingSPUs : Int)) := by
  rw [getRange32_eq host this hN]
  unfold AllSPUsMeter_getRange
  split
  · next h => exact absurd h hL
  · next h => exact absurd h hR
  · rfl

theorem getRange_default_witness :
    (sampleHost 6).existingSPUs ≤ INT_MAX
      ∧ AllSPUsMeter_getRange32 (sampleHost 6)
          { name := "SPU", mode := 0, h := 1, meterData := none } = (0, 6) :=
  ⟨by decide,
   getRange_default (sampleHost 6) { name := "SPU", mode := 0, h := 1, meterData := none }
    (by decide) (by decide) (by decide)⟩

/-- With no unit every variant has the range `(0, 0)`. -/
theorem getRange_zero (host : Machine) (this : ParentMeter) (h0 : host.existingSPUs = 0) :
    AllSPUsMeter_getRange host this = (0, 0) := by
  unfold AllSPUsMeter_getRange
  rw [h0]
  split <;> rfl

/-- C12: when the unit count is 0, every variant (whatever the name) has count
0; `SPUMeterCommonInit` returns a pool with no slot and constructs or
initialises no child; on any pool `AllSPUsMeter_updateValues` returns the meter
unchanged, and `SPUMeterCommonDraw` (for every `ncol ≥ 1`) and
`SingleColSPUsMeter_draw` return without a draw call and without a fault: no
slot is read (`meters[0]` included, also when the slot array is null) and no
division by `nrows = 0` is executed. -/
theorem zero_units_noop (ext : Externals) (host : Machine) (this : ParentMeter)
    (h0 : host.existingSPUs = 0) :
    (AllSPUsMeter_getRange host this).2 = 0
      ∧ (this.meterData = none →
          SPUMeterCommonInit host this
            = some ({ this with meterData := some { spus := 0, meters := [] } },
                    [PoolEvent.allocData]))
      ∧ (∀ data : SPUMeterData, this.meterData = some data →
          SPUMeterCommonInit host this = some (this, [])
            ∧ AllSPUsMeter_updateValues ext host this = some this
            ∧ (∀ x y w ncol : Int, 1 ≤ ncol →
                SPUMeterCommonDraw host this x y w ncol = some []
                  ∧ gridRows (AllSPUsMeter_getRange host this).2 ncol = 0)
            ∧ (∀ x y w : Int, SingleColSPUsMeter_draw host this x y w = some [])) := by
  have hr := getRange_zero host this h0
  refine ⟨by rw [hr], ?_, ?_⟩
  · intro hnone
    unfold SPUMeterCommonInit
    rw [hr, hnone, h0]
    rfl
  · intro data hd
    refine ⟨?_, ?_, ?_, ?_⟩
    · unfold SPUMeterCommonInit
      rw [hr, hd]
      simp only [Int.toNat_zero, forLoop, Option.map_some']
      rw [← hd]
    · unfold AllSPUsMeter_updateValues
      rw [hd]
      simp only [hr, Int.toNat_zero, forLoop, Option.map_some']
      rw [← hd]
    · intro x y w ncol hn
      have hne : ncol ≠ 0 := by omega
      refine ⟨?_, ?_⟩
      · unfold SPUMeterCommonDraw
        rw [hd]
        simp only [hr, hne, if_false, Int.toNat_zero, forLoop]
      · rw [hr]
        unfold gridRows
        rw [Int.tdiv_eq_ediv (by omega) (by omega)]
        exact Int.ediv_eq_zero_of_lt (by omega) (by omega)
    · intro x y w
      unfold SingleColSPUsMeter_draw
      rw [hd]
      simp only [hr, Int.toNat_zero, forLoop, Option.map_some']

theorem zero_units_noop_witness :
    SPUMeterCommonDraw (sampleHost 0)
        { name := "RightSPUs4", mode := 0, h := 1, meterData := some { spus := 0, meters := [] } }
        0 0 80 4 = some [] :=
  (((zero_units_noop sampleExternals (sampleHost 0)
      { name := "RightSPUs4", mode := 0, h := 1, meterData := some { spus := 0, meters := [] } }
      rfl).2.2 { spus := 0, meters := [] } rfl).2.2.1 0 0 80 4 (by decide)).1

/-! ## The single-column draw: theorems -/

/-- The heights before slot `i + 1` are those before slot `i` and the height
of the child in slot `i`. -/
theorem heightsBefore_succ (meters : List (Option Meter)) (i : Nat) (m : Meter)
    (hm : meters[i]? = some (some m)) :
    heightsBefore meters (i + 1) = heightsBefore meters i + m.h := by
  unfold heightsBefore
  rw [List.take_succ, hm]
  simp

/-- The loop of `SingleColSPUsMeter_draw` over filled slots returns the stacked
calls and the running `y`. -/
theorem forLoop_singleCol (meters : List (Option Meter)) (x y w : Int) (n : Nat)
    (hfull : ∀ i : Nat, i < n → ∃ m, meters[i]? = some (some m)) :
    forLoop (singleColSlot meters x w) n (y, [])
      = some (y + heightsBefore meters n,
          (List.range n).map fun i : Nat =>
            ({ child := i, x := x, y := y + heightsBefore meters i, w := w } : DrawCall)) := by
  induction n with
  | zero => simp [forLoop, heightsBefore]
  | succ n ih =>
    obtain ⟨m, hm⟩ := hfull n (Nat.lt_succ_self n)
    rw [forLoop, ih (fun i hi => hfull i (Nat.lt_succ_of_lt hi)), Option.some_bind]
    unfold singleColSlot
    rw [hm, heightsBefore_succ meters n m hm, List.range_succ, List.map_append]
    simp [add_assoc]

/-- The single-column draw on a pool whose first `count` slots are filled. -/
theorem singleCol_eq_map (host : Machine) (this : ParentMeter) (data : SPUMeterData)
    (x y w : Int) (hd : this.meterData = some data)
    (hfull : ∀ i : Nat, (i : Int) < (AllSPUsMeter_getRange host this).2 →
      ∃ m, data.meters[i]? = some (some m)) :
    SingleColSPUsMeter_draw host this x y w
      = some ((List.range (AllSPUsMeter_getRange host this).2.toNat).map fun i : Nat =>
          ({ child := i, x := x, y := y + heightsBefore data.meters i, w := w } : DrawCall)) := by
  unfold SingleColSPUsMeter_draw
  rw [hd]
  simp only
  rw [forLoop_singleCol data.meters x y w _ (fun i hi => hfull i (by omega))]
  rfl

/-- C14: `SingleColSPUsMeter_draw` stacks the children vertically: on a pool
whose first `count` slots are filled it returns, and for every `i < count`
child `i` is drawn at `(x, y + sum of the heights of the children 0..i-1, w)`,
with `x` and `w` unchanged, whatever the heights of the children are. -/
theorem singleCol_stacks (host : Machine) (this : ParentMeter) (data : SPUMeterData)
    (x y w : Int) (hd : this.meterData = some data)
    (hfull : ∀ i : Nat, (i : Int) < (AllSPUsMeter_getRange host this).2 →
      ∃ m, data.meters[i]? = some (some m)) :
    ∃ calls, SingleColSPUsMeter_draw host this x y w = some calls
      ∧ (calls.length : Int) = (AllSPUsMeter_getRange host this).2
      ∧ (∀ i : Nat, (i : Int) < (AllSPUsMeter_getRange host this).2 →
          calls[i]? = some { child := i, x := x, y := y + heightsBefore data.meters i, w := w })
      ∧ heightsBefore data.meters 0 = 0
      ∧ (∀ (i : Nat) (m : Meter), data.meters[i]? = some (some m) →
          heightsBefore data.meters (i + 1) = heightsBefore data.meters i + m.h) := by
  have hc := (getRange_nonneg host this).2
  refine ⟨_, singleCol_eq_map host this data x y w hd hfull, ?_, ?_, ?_, ?_⟩
  · simp only [List.length_map, List.length_range]
    omega
  · intro i hi
    rw [List.getElem?_map, List.getElem?_range (by omega)]
    rfl
  · simp [heightsBefore]
  · intro i m hm
    exact heightsBefore_succ data.meters i m hm

theorem singleCol_stacks_witness :
    ∃ calls,
      SingleColSPUsMeter_draw (sampleHost 3)
          { name := "AllSPUs", mode := 0, h := 8,
            meterData := some
              { spus := 3,
                meters := [some { Meter_new 1 with h := 1 }, some { Meter_new 2 with h := 4 },
                           some { Meter_new 3 with h := 3 }] } }
          2 10 40 = some calls
      ∧ calls[2]? = some { child := 2, x := 2, y := 15, w := 40 } :=
  let ⟨calls, hrun, _, hcall, _⟩ :=
    singleCol_stacks (sampleHost 3)
      { name := "AllSPUs", mode := 0, h := 8,
        meterData := some
          { spus := 3,
            meters := [some { Meter_new 1 with h := 1 }, some { Meter_new 2 with h := 4 },
                       some { Meter_new 3 with h := 3 }] } }
      { spus := 3,
        meters := [some { Meter_new 1 with h := 1 }, some { Meter_new 2 with h := 4 },
                   some { Meter_new 3 with h := 3 }] }
      2 10 40 rfl
      (fun i hi => by
        have h3 : (AllSPUsMeter_getRange (sampleHost 3)
            { name := "AllSPUs", mode := 0, h := 8,
              meterData := some
                { spus := 3,
                  meters := [some { Meter_new 1 with h := 1 }, some { Meter_new 2 with h := 4 },
                             some { Meter_new 3 with h := 3 }] } }).2 = 3 := rfl
        rw [h3] at hi
        have hi3 : i < 3 := by omega
        interval_cases i <;> exact ⟨_, rfl⟩)
  ⟨calls, hrun, (hcall 2 (by decide)).trans (by decide)⟩

/-- The grid draw on a pool whose first `count ≥ 1` slots are filled: the calls
in index order. -/
theorem commonDraw_eq_map (host : Machine) (this : ParentMeter) (data : SPUMeterData)
    (m0 : Meter) (x y w ncol : Int)
    (hd : this.meterData = some data)
    (hc : 1 ≤ (AllSPUsMeter_getRange host this).2)
    (hn : 1 ≤ ncol) (hw : 0 ≤ w)
    (h0 : data.meters[0]? = some (some m0))
    (hfull : ∀ i : Nat, (i : Int) < (AllSPUsMeter_getRange host this).2 →
      ∃ m, data.meters[i]? = some (some m)) :
    SPUMeterCommonDraw host this x y w ncol
      = some ((List.range (AllSPUsMeter_getRange host this).2.toNat).map fun i : Nat =>
          ({ child := i
             x := x + (w / ncol)
                      * ((i : Int) / (((AllSPUsMeter_getRange host this).2 + ncol - 1) / ncol))
                   + min ((i : Int) / (((AllSPUsMeter_getRange host this).2 + ncol - 1) / ncol))
                       (w % ncol)
             y := y + ((i : Int) % (((AllSPUsMeter_getRange host this).2 + ncol - 1) / ncol))
                      * m0.h
             w := w / ncol } : DrawCall)) := by
  have hne : ncol ≠ 0 := by omega
  unfold SPUMeterCommonDraw
  rw [hd]
  simp only [hne, if_false]
  rw [forLoop_append (fun i : Nat =>
        ({ child := i
           x := x + (w / ncol)
                    * ((i : Int) / (((AllSPUsMeter_getRange host this).2 + ncol - 1) / ncol))
                 + min ((i : Int) / (((AllSPUsMeter_getRange host this).2 + ncol - 1) / ncol))
                     (w % ncol)
           y := y + ((i : Int) % (((AllSPUsMeter_getRange host this).2 + ncol - 1) / ncol))
                    * m0.h
           w := w / ncol } : DrawCall)) _ _ (fun i hi acc => ?_) []]
  · simp
  · obtain ⟨m, hm⟩ := hfull i (by omega)
    exact drawSlot_eq data.meters m0 m x y w ncol _ hc hn hw i h0 hm acc

/-- The heights before slot `i` of children of one height `h` sum to `i * h`. -/
theorem heightsBefore_uniform (meters : List (Option Meter)) (h : Int) (n : Nat)
    (hsame : ∀ i : Nat, i < n → ∃ m, meters[i]? = some (some m) ∧ m.h = h) :
    ∀ i : Nat, i ≤ n → heightsBefore meters i = (i : Int) * h := by
  intro i
  induction i with
  | zero => intro _; simp [heightsBefore]
  | succ i ih =>
    intro hi
    obtain ⟨m, hm, hh⟩ := hsame i (by omega)
    rw [heightsBefore_succ meters i m hm, ih (by omega), hh]
    push_cast
    ring

/-- C17: the single-column draw is the `columnsPerRow = 1` case of the grid
draw: for every count, `x`, `y` and `w ≥ 0`, on a pool whose first `count`
slots are filled with children that all report the height of the first child,
`SPUMeterCommonDraw` with `ncol = 1` returns exactly the calls of
`SingleColSPUsMeter_draw`: the same children in the same order with the same
`x`, `y` and width. -/
theorem singleCol_is_grid_one (host : Machine) (this : ParentMeter) (data : SPUMeterData)
    (h : Int) (x y w : Int) (hw : 0 ≤ w)
    (hd : this.meterData = some data)
    (hsame : ∀ i : Nat, (i : Int) < (AllSPUsMeter_getRange host this).2 →
      ∃ m, data.meters[i]? = some (some m) ∧ m.h = h) :
    SPUMeterCommonDraw host this x y w 1 = SingleColSPUsMeter_draw host this x y w
      ∧ ∃ calls, SingleColSPUsMeter_draw host this x y w = some calls
          ∧ (calls.length : Int) = (AllSPUsMeter_getRange host this).2 := by
  have hc := (getRange_nonneg host this).2
  have hfull : ∀ i : Nat, (i : Int) < (AllSPUsMeter_getRange host this).2 →
      ∃ m, data.meters[i]? = some (some m) :=
    fun i hi => (hsame i hi).imp fun _ hm => hm.1
  have hsingle := singleCol_eq_map host this data x y w hd hfull
  refine ⟨?_, _, hsingle, by simp only [List.length_map, List.length_range]; omega⟩
  rw [hsingle]
  by_cases hzero : (AllSPUsMeter_getRange host this).2 = 0
  · unfold SPUMeterCommonDraw
    rw [hd]
    simp [hzero, forLoop]
  · have hc1 : 1 ≤ (AllSPUsMeter_getRange host this).2 := by omega
    obtain ⟨m0, hm0, hh0⟩ := hsame 0 (by omega)
    rw [commonDraw_eq_map host this data m0 x y w 1 hd hc1 (by omega) hw hm0 hfull]
    congr 1
    apply List.map_congr_left
    intro i hi
    have hi' : i < (AllSPUsMeter_getRange host this).2.toNat := List.mem_range.mp hi
    have hilt : (i : Int) < (AllSPUsMeter_getRange host this).2 := by omega
    have hrows : ((AllSPUsMeter_getRange host this).2 + 1 - 1) / 1
        = (AllSPUsMeter_getRange host this).2 := by
      rw [Int.ediv_one]; omega
    have hcol : (i : Int) / (AllSPUsMeter_getRange host this).2 = 0 :=
      Int.ediv_eq_zero_of_lt (Int.natCast_nonneg i) hilt
    have hrow : (i : Int) % (AllSPUsMeter_getRange host this).2 = (i : Int) :=
      Int.emod_eq_of_lt (Int.natCast_nonneg i) hilt
    have hsum := heightsBefore_uniform data.meters h
      (AllSPUsMeter_getRange host this).2.toNat
      (fun j hj => hsame j (by omega)) i (by omega)
    rw [hrows, hcol, hrow, hsum, hh0]
    simp

theorem singleCol_is_grid_one_witness :
    SPUMeterCommonDraw (sampleHost 3) (sampleParent "AllSPUs" 3) 2 10 40 1
      = SingleColSPUsMeter_draw (sampleHost 3) (sampleParent "AllSPUs" 3) 2 10 40 :=
  (singleCol_is_grid_one (sampleHost 3) (sampleParent "AllSPUs" 3)
    { spus := 3, meters := (List.range 3).map fun i => some (Meter_new (i + 1)) }
    1 2 10 40 (by decide) rfl
    (fun i hi => by
      have h3 : (AllSPUsMeter_getRange (sampleHost 3) (sampleParent "AllSPUs" 3)).2 = 3 := rfl
      rw [h3] at hi
      have hi3 : i < 3 := by omega
      interval_cases i <;> exact ⟨_, rfl, rfl⟩)).1

/-! ## The expanded display: theorems -/

/-- The display of a present, online unit: the usage field, the fields of the
detailed or of the condensed mode, then the frequency and the temperature. -/
theorem display_online (ext : Externals) (host : Machine) (this : Meter)
    (hpres : this.param ≤ host.existingSPUs) (hon : this.curItems ≠ 0) :
    SPUMeter_display ext host this
      = displayField ext ":" ColorElement.CPU_NORMAL
            (this.values.getD SPU_METER_NORMAL (Double.val 0))
        ++ (if host.settings.detailedSPUTime then
              displayField ext "sy:" ColorElement.CPU_SYSTEM
                  (this.values.getD SPU_METER_KERNEL (Double.val 0))
              ++ displayField ext "ni:" ColorElement.CPU_NICE_TEXT
                  (this.values.getD SPU_METER_NICE (Double.val 0))
              ++ displayField ext "hi:" ColorElement.CPU_IRQ
                  (this.values.getD SPU_METER_IRQ (Double.val 0))
              ++ displayField ext "si:" ColorElement.CPU_SOFTIRQ
                  (this.values.getD SPU_METER_SOFTIRQ (Double.val 0))
              ++ (if isNonnegative (this.values.getD SPU_METER_STEAL (Double.val 0)) then
                    displayField ext "st:" ColorElement.CPU_STEAL
                      (this.values.getD SPU_METER_STEAL (Double.val 0))
                  else [])
              ++ (if isNonnegative (this.values.getD SPU_METER_GUEST (Double.val 0)) then
                    displayField ext "gu:" ColorElement.CPU_GUEST
                      (this.values.getD SPU_METER_GUEST (Double.val 0))
                  else [])
              ++ displayField ext "wa:" ColorElement.CPU_IOWAIT
                  (this.values.getD SPU_METER_IOWAIT (Double.val 0))
            else
              displayField ext "sys:" ColorElement.CPU_SYSTEM
                  (this.values.getD SPU_METER_KERNEL (Double.val 0))
              ++ displayField ext "low:" ColorElement.CPU_NICE_TEXT
                  (this.values.getD SPU_METER_NICE (Double.val 0))
              ++ (if isNonnegative (this.values.getD SPU_METER_IRQ (Double.val 0)) then
                    displayField ext "vir:" ColorElement.CPU_GUEST
                      (this.values.getD SPU_METER_IRQ (Double.val 0))
                  else []))
        ++ (if host.settings.showSPUFrequency then
              displayFrequency (this.values.getD SPU_METER_FREQUENCY (Double.val 0))
            else [])
        ++ (if ext.BUILD_WITH_SPU_TEMP && host.settings.showSPUTemperature then
              displayTemperature ext host.settings
                (this.values.getD SPU_METER_TEMPERATURE (Double.val 0))
            else []) := by
  have hnot : ¬ (this.param > host.existingSPUs) := by omega
  unfold SPUMeter_display
  simp only [hnot, hon, if_false]

/-- C11: in detailed mode, for a present and online unit, `SPUMeter_display`
emits the fields in the order usage (`:`, the value slot `SPU_METER_NORMAL`),
system (`sy:`), nice (`ni:`), irq (`hi:`), softirq (`si:`), steal (`st:`), guest
(`gu:`), iowait (`wa:`), each label followed by the value of its own slot; the
steal field appears if and only if the steal sample is a valid non-negative
number, the guest field if and only if the guest sample is one, independently
of each other, and the other fields always appear. -/
theorem display_detailed (ext : Externals) (host : Machine) (this : Meter)
    (hpres : this.param ≤ host.existingSPUs) (hon : this.curItems ≠ 0)
    (hdet : host.settings.detailedSPUTime = true) :
    (∃ rest : List (ColorElement × String),
        SPUMeter_display ext host this
          = displayField ext ":" ColorElement.CPU_NORMAL
                (this.values.getD SPU_METER_NORMAL (Double.val 0))
            ++ displayField ext "sy:" ColorElement.CPU_SYSTEM
                (this.values.getD SPU_METER_KERNEL (Double.val 0))
            ++ displayField ext "ni:" ColorElement.CPU_NICE_TEXT
                (this.values.getD SPU_METER_NICE (Double.val 0))
            ++ displayField ext "hi:" ColorElement.CPU_IRQ
                (this.values.getD SPU_METER_IRQ (Double.val 0))
            ++ displayField ext "si:" ColorElement.CPU_SOFTIRQ
                (this.values.getD SPU_METER_SOFTIRQ (Double.val 0))
            ++ (if isNonnegative (this.values.getD SPU_METER_STEAL (Double.val 0)) then
                  displayField ext "st:" ColorElement.CPU_STEAL
                    (this.values.getD SPU_METER_STEAL (Double.val 0))
                else [])
            ++ (if isNonnegative (this.values.getD SPU_METER_GUEST (Double.val 0)) then
                  displayField ext "gu:" ColorElement.CPU_GUEST
                    (this.values.getD SPU_METER_GUEST (Double.val 0))
                else [])
            ++ displayField ext "wa:" ColorElement.CPU_IOWAIT
                (this.values.getD SPU_METER_IOWAIT (Double.val 0))
            ++ rest
          ∧ ∀ chunk ∈ rest, chunk.1 = ColorElement.METER_TEXT →
              chunk.2 = "freq: " ∨ chunk.2 = "temp:")
      ∧ (((SPUMeter_display ext host this).filter
              fun chunk => decide (chunk.1 = ColorElement.METER_TEXT)).map (fun chunk => chunk.2)
          = [":", "sy:", "ni:", "hi:", "si:"]
            ++ (if isNonnegative (this.values.getD SPU_METER_STEAL (Double.val 0)) then ["st:"]
                else [])
            ++ (if isNonnegative (this.values.getD SPU_METER_GUEST (Double.val 0)) then ["gu:"]
                else [])
            ++ ["wa:"]
            ++ (if host.settings.showSPUFrequency then ["freq: "] else [])
            ++ (if ext.BUILD_WITH_SPU_TEMP && host.settings.showSPUTemperature then ["temp:"]
                else []))
      ∧ ((ColorElement.METER_TEXT, "st:") ∈ SPUMeter_display ext host this ↔
          isNonnegative (this.values.getD SPU_METER_STEAL (Double.val 0)) = true)
      ∧ ((ColorElement.METER_TEXT, "gu:") ∈ SPUMeter_display ext host this ↔
          isNonnegative (this.values.getD SPU_METER_GUEST (Double.val 0)) = true) := by
  have hout := display_online ext host this hpres hon
  rw [hdet] at hout
  simp only [if_true] at hout
  refine ⟨⟨(if host.settings.showSPUFrequency then
        displayFrequency (this.values.getD SPU_METER_FREQUENCY (Double.val 0)) else [])
      ++ (if ext.BUILD_WITH_SPU_TEMP && host.settings.showSPUTemperature then
            displayTemperature ext host.settings
              (this.values.getD SPU_METER_TEMPERATURE (Double.val 0))
          else []), ?_, ?_⟩, ?_, ?_, ?_⟩
  · rw [hout]
    simp only [List.append_assoc]
  · intro chunk hmem hcol
    simp only [List.mem_append] at hmem
    rcases hmem with h | h
    · split at h
      · simp only [displayFrequency, List.mem_cons, List.mem_singleton, List.not_mem_nil,
          or_false] at h
        rcases h with h | h
        · exact Or.inl (by rw [h])
        · rw [h] at hcol; exact absurd hcol (by simp)
      · exact absurd h (List.not_mem_nil _)
    · split at h
      · simp only [displayTemperature, List.mem_cons, List.mem_singleton, List.not_mem_nil,
          or_false] at h
        rcases h with h | h
        · exact Or.inr (by rw [h])
        · rw [h] at hcol; exact absurd hcol (by simp)
      · exact absurd h (List.not_mem_nil _)
  · rw [hout]
    cases isNonnegative (this.values.getD SPU_METER_STEAL (Double.val 0)) <;>
      cases isNonnegative (this.values.getD SPU_METER_GUEST (Double.val 0)) <;>
      cases host.settings.showSPUFrequency <;>
      cases (ext.BUILD_WITH_SPU_TEMP && host.settings.showSPUTemperature) <;>
      simp [displayField, displayFrequency, displayTemperature]
  · rw [hout]
    cases isNonnegative (this.values.getD SPU_METER_STEAL (Double.val 0)) <;>
      cases host.settings.showSPUFrequency <;>
      cases (ext.BUILD_WITH_SPU_TEMP && host.settings.showSPUTemperature) <;>
      simp [displayField, displayFrequency, displayTemperature]
  · rw [hout]
    cases isNonnegative (this.values.getD SPU_METER_GUEST (Double.val 0)) <;>
      cases host.settings.showSPUFrequency <;>
      cases (ext.BUILD_WITH_SPU_TEMP && host.settings.showSPUTemperature) <;>
      simp [displayField, displayFrequency, displayTemperature]

theorem display_detailed_witness :
    ((SPUMeter_display sampleExternals (sampleHostDetailed 4) (sampleMeter sampleValuesGuest)).filter
        fun chunk => decide (chunk.1 = ColorElement.METER_TEXT)).map (fun chunk => chunk.2)
      = [":", "sy:", "ni:", "hi:", "si:", "gu:", "wa:", "freq: ", "temp:"] :=
  (display_detailed sampleExternals (sampleHostDetailed 4) (sampleMeter sampleValuesGuest)
    (by decide) (by decide) rfl).2.1.trans (by decide)

/-- Counterexample to C18 as stated: in condensed mode the virtualization field
does not follow the guest sample.  With a valid guest sample and an invalid
sample in slot `SPU_METER_IRQ` no `vir:` field is emitted; with an invalid guest
sample and the valid sample 7 in slot `SPU_METER_IRQ` the `vir:` field is
emitted and shows 7. -/
theorem condensed_vir_not_guest :
    (isNonnegative (sampleValuesGuest.getD SPU_METER_GUEST (Double.val 0)) = true
        ∧ (ColorElement.METER_TEXT, "vir:")
            ∉ SPUMeter_display sampleExternals (sampleHost 4) (sampleMeter sampleValuesGuest))
      ∧ (isNonnegative (sampleValuesIrq.getD SPU_METER_GUEST (Double.val 0)) = false
          ∧ SPUMeter_display sampleExternals (sampleHost 4) (sampleMeter sampleValuesIrq)
              = [(ColorElement.METER_TEXT, ":"), (ColorElement.CPU_NORMAL, " 50.0% "),
                 (ColorElement.METER_TEXT, "sys:"), (ColorElement.CPU_SYSTEM, "  3.0% "),
                 (ColorElement.METER_TEXT, "low:"), (ColorElement.CPU_NICE_TEXT, "  1.0% "),
                 (ColorElement.METER_TEXT, "vir:"), (ColorElement.CPU_GUEST, "  7.0% "),
                 (ColorElement.METER_TEXT, "freq: "), (ColorElement.METER_VALUE, "1800MHz "),
                 (ColorElement.METER_TEXT, "temp:"), (ColorElement.METER_VALUE, " 41.0°C")]) := by
  refine ⟨⟨by decide, by decide⟩, by decide, by decide⟩

/-- C18, amended: in condensed mode, for a present and online unit,
`SPUMeter_display` emits after the usage field exactly the system field
(`sys:`), the nice field (`low:`) and a virtualization field (`vir:`) that shows
the sample of the value slot `SPU_METER_IRQ` and is emitted if and only if that
sample is a valid non-negative number; the guest slot is not read, and no irq
(`hi:`), softirq (`si:`), steal (`st:`), guest (`gu:`) or iowait (`wa:`) field
is emitted. -/
theorem display_condensed (ext : Externals) (host : Machine) (this : Meter)
    (hpres : this.param ≤ host.existingSPUs) (hon : this.curItems ≠ 0)
    (hdet : host.settings.detailedSPUTime = false) :
    (SPUMeter_display ext host this
        = displayField ext ":" ColorElement.CPU_NORMAL
              (this.values.getD SPU_METER_NORMAL (Double.val 0))
          ++ displayField ext "sys:" ColorElement.CPU_SYSTEM
              (this.values.getD SPU_METER_KERNEL (Double.val 0))
          ++ displayField ext "low:" ColorElement.CPU_NICE_TEXT
              (this.values.getD SPU_METER_NICE (Double.val 0))
          ++ (if isNonnegative (this.values.getD SPU_METER_IRQ (Double.val 0)) then
                displayField ext "vir:" ColorElement.CPU_GUEST
                  (this.values.getD SPU_METER_IRQ (Double.val 0))
              else [])
          ++ (if host.settings.showSPUFrequency then
                displayFrequency (this.values.getD SPU_METER_FREQUENCY (Double.val 0))
              else [])
          ++ (if ext.BUILD_WITH_SPU_TEMP && host.settings.showSPUTemperature then
                displayTemperature ext host.settings
                  (this.values.getD SPU_METER_TEMPERATURE (Double.val 0))
              else []))
      ∧ (((SPUMeter_display ext host this).filter
              fun chunk => decide (chunk.1 = ColorElement.METER_TEXT)).map (fun chunk => chunk.2)
          = [":", "sys:", "low:"]
            ++ (if isNonnegative (this.values.getD SPU_METER_IRQ (Double.val 0)) then ["vir:"]
                else [])
            ++ (if host.settings.showSPUFrequency then ["freq: "] else [])
            ++ (if ext.BUILD_WITH_SPU_TEMP && host.settings.showSPUTemperature then ["temp:"]
                else []))
      ∧ ((ColorElement.METER_TEXT, "vir:") ∈ SPUMeter_display ext host this ↔
          isNonnegative (this.values.getD SPU_METER_IRQ (Double.val 0)) = true)
      ∧ (∀ label ∈ ["hi:", "si:", "st:", "gu:", "wa:"],
          (ColorElement.METER_TEXT, label) ∉ SPUMeter_display ext host this)
      ∧ (∀ values' : List Double,
          (∀ slot : Nat, slot ≠ SPU_METER_GUEST →
            values'.getD slot (Double.val 0) = this.values.getD slot (Double.val 0)) →
          SPUMeter_display ext host { this with values := values' }
            = SPUMeter_display ext host this) := by
  have hout := display_online ext host this hpres hon
  rw [hdet] at hout
  simp only [Bool.false_eq_true, if_false] at hout
  have hlabels : ((SPUMeter_display ext host this).filter
        fun chunk => decide (chunk.1 = ColorElement.METER_TEXT)).map (fun chunk => chunk.2)
      = [":", "sys:", "low:"]
        ++ (if isNonnegative (this.values.getD SPU_METER_IRQ (Double.val 0)) then ["vir:"]
            else [])
        ++ (if host.settings.showSPUFrequency then ["freq: "] else [])
        ++ (if ext.BUILD_WITH_SPU_TEMP && host.settings.showSPUTemperature then ["temp:"]
            else []) := by
    rw [hout]
    cases isNonnegative (this.values.getD SPU_METER_IRQ (Double.val 0)) <;>
      cases host.settings.showSPUFrequency <;>
      cases (ext.BUILD_WITH_SPU_TEMP && host.settings.showSPUTemperature) <;>
      simp [displayField, displayFrequency, displayTemperature]
  have hmem : ∀ label : String,
      (ColorElement.METER_TEXT, label) ∈ SPUMeter_display ext host this ↔
        label ∈ ((SPUMeter_display ext host this).filter
          fun chunk => decide (chunk.1 = ColorElement.METER_TEXT)).map (fun chunk => chunk.2) := by
    intro label
    simp only [List.mem_map, List.mem_filter, decide_eq_true_eq]
    constructor
    · intro h
      exact ⟨(ColorElement.METER_TEXT, label), ⟨h, rfl⟩, rfl⟩
    · rintro ⟨⟨c, t⟩, ⟨h, hc⟩, ht⟩
      simp only at hc ht
      rw [← hc, ← ht]
      exact h
  refine ⟨?_, hlabels, ?_, ?_, ?_⟩
  · rw [hout]
    simp only [List.append_assoc]
  · rw [hmem, hlabels]
    cases isNonnegative (this.values.getD SPU_METER_IRQ (Double.val 0)) <;>
      cases host.settings.showSPUFrequency <;>
      cases (ext.BUILD_WITH_SPU_TEMP && host.settings.showSPUTemperature) <;>
      simp
  · intro label hlabel
    rw [hmem, hlabels]
    simp only [List.mem_cons, List.mem_singleton, List.not_mem_nil, or_false] at hlabel
    rcases hlabel with h | h | h | h | h <;> subst h <;>
      cases isNonnegative (this.values.getD SPU_METER_IRQ (Double.val 0)) <;>
      cases host.settings.showSPUFrequency <;>
      cases (ext.BUILD_WITH_SPU_TEMP && host.settings.showSPUTemperature) <;>
      simp
  · intro values' hsame
    have hout' := display_online ext host { this with values := values' } hpres hon
    rw [hdet] at hout'
    simp only [Bool.false_eq_true, if_false] at hout'
    rw [hout, hout']
    have e1 := hsame SPU_METER_NORMAL (by decide)
    have e2 := hsame SPU_METER_KERNEL (by decide)
    have e3 := hsame SPU_METER_NICE (by decide)
    have e4 := hsame SPU_METER_IRQ (by decide)
    have e5 := hsame SPU_METER_FREQUENCY (by decide)
    have e6 := hsame SPU_METER_TEMPERATURE (by decide)
    simp only [e1, e2, e3, e4, e5, e6]

theorem display_condensed_witness :
    ((SPUMeter_display sampleExternals (sampleHost 4) (sampleMeter sampleValuesIrq)).filter
        fun chunk => decide (chunk.1 = ColorElement.METER_TEXT)).map (fun chunk => chunk.2)
      = [":", "sys:", "low:", "vir:", "freq: ", "temp:"] :=
  (display_condensed sampleExternals (sampleHost 4) (sampleMeter sampleValuesIrq)
    (by decide) (by decide) rfl).2.1.trans (by decide)

/-! ## The temperature segment of the summary: theorems -/

/-- The run of `SPUMeterCommonUpdateMode` on a pool whose first `count ≥ 1`
slots are filled, the assertion of the source holding: the meter it returns. -/
theorem updateMode_run (Meter_setMode : Meter → Nat → Meter) (host : Machine)
    (this : ParentMeter) (data : SPUMeterData) (m0 : Meter) (mode : Nat) (ncol : Int)
    (hd : this.meterData = some data) (hn : 1 ≤ ncol)
    (hc : 1 ≤ (AllSPUsMeter_getRange host this).2)
    (hfull : ∀ i : Nat, (i : Int) < (AllSPUsMeter_getRange host this).2 →
      ∃ m, data.meters[i]? = some (some m))
    (h0 : data.meters[0]? = some (some m0))
    (hpos : 0 < (Meter_setMode m0 mode).h) :
    ∃ ms' : List (Option Meter),
      SPUMeterCommonUpdateMode Meter_setMode host this mode ncol
        = some { name := this.name, mode := mode,
                 h := (Meter_setMode m0 mode).h
                        * (((AllSPUsMeter_getRange host this).2 + ncol - 1) / ncol),
                 meterData := some { spus := data.spus, meters := ms' } }
      ∧ ms'.length = data.meters.length
      ∧ ∀ j : Nat, ms'[j]? =
          if j < (AllSPUsMeter_getRange host this).2.toNat then
            (data.meters[j]?).map (Option.map fun m => Meter_setMode m mode)
          else data.meters[j]? := by
  have hrange : AllSPUsMeter_getRange host
        { name := this.name, mode := mode, h := this.h, meterData := some data }
      = AllSPUsMeter_getRange host this := getRange_congr host _ _ rfl
  have hne : (AllSPUsMeter_getRange host this).2 ≠ 0 := by omega
  have hncol : ncol ≠ 0 := by omega
  obtain ⟨ms', hrun, hlen, hget⟩ := forLoop_applySlot (fun m => Meter_setMode m mode)
    (AllSPUsMeter_getRange host this).2.toNat data.meters
    (fun i hi => hfull i (by omega))
  have h0' : ms'[0]? = some (some (Meter_setMode m0 mode)) := by
    rw [hget 0, if_pos (by omega), h0]
    rfl
  have hrun' : forLoop (setModeSlot Meter_setMode mode)
      (AllSPUsMeter_getRange host this).2.toNat data.meters = some ms' := hrun
  refine ⟨ms', ?_, hlen, hget⟩
  unfold SPUMeterCommonUpdateMode
  rw [hd]
  simp only [hrange, hne, if_false, hrun', Option.some_bind, h0', hpos, if_true, hncol,
    Int.tdiv_eq_ediv (show (0 : Int) ≤ (AllSPUsMeter_getRange host this).2 + ncol - 1 by omega)
      (show (0 : Int) ≤ ncol by omega)]

/-- The column and the row of a child index lie in the grid. -/
theorem grid_cell_bounds (count ncol i : Int) (hc : 1 ≤ count) (hn : 1 ≤ ncol)
    (hi0 : 0 ≤ i) (hi : i < count) :
    0 ≤ i / ((count + ncol - 1) / ncol) ∧ i / ((count + ncol - 1) / ncol) < ncol
      ∧ 0 ≤ i % ((count + ncol - 1) / ncol)
      ∧ i % ((count + ncol - 1) / ncol) < (count + ncol - 1) / ncol := by
  have hb := gridRows_bounds count ncol (by omega) hn
  have hpos := gridRows_pos count ncol hc hn
  rw [gridRows_eq count ncol (by omega) hn] at hb hpos
  refine ⟨Int.ediv_nonneg hi0 (by omega), ?_, Int.emod_nonneg i (by omega),
    Int.emod_lt_of_pos i (by omega)⟩
  apply Int.ediv_lt_of_lt_mul (by omega)
  have := hb.2
  nlinarith

/-- C16: `SPUMeterCommonUpdateMode(parent, mode, ncol)` stores `mode` on the
parent, also when the count is 0.  When the count is at least 1 (the first
`count` slots filled, the assertion of the source holding) it returns with
`Meter_setMode(child, mode)` applied to every child at the indices `0 ..
count-1` and to no other slot; so, for a mode setter that stores the mode and
under which the height is determined by the mode, all these children afterwards
have the mode `mode` and the height of the first child. -/
theorem updateMode_propagates (Meter_setMode : Meter → Nat → Meter) (host : Machine)
    (this : ParentMeter) (data : SPUMeterData) (mode : Nat) (ncol : Int)
    (hd : this.meterData = some data) (hn : 1 ≤ ncol) :
    ((AllSPUsMeter_getRange host this).2 = 0 →
        ∃ this', SPUMeterCommonUpdateMode Meter_setMode host this mode ncol = some this'
          ∧ this'.mode = mode ∧ this'.meterData = this.meterData)
      ∧ (∀ m0 : Meter, 1 ≤ (AllSPUsMeter_getRange host this).2 →
          (∀ i : Nat, (i : Int) < (AllSPUsMeter_getRange host this).2 →
            ∃ m, data.meters[i]? = some (some m)) →
          data.meters[0]? = some (some m0) →
          0 < (Meter_setMode m0 mode).h →
          ∃ this' data', SPUMeterCommonUpdateMode Meter_setMode host this mode ncol = some this'
            ∧ this'.mode = mode
            ∧ this'.meterData = some data'
            ∧ data'.meters.length = data.meters.length
            ∧ (∀ (i : Nat) (m : Meter), (i : Int) < (AllSPUsMeter_getRange host this).2 →
                data.meters[i]? = some (some m) →
                data'.meters[i]? = some (some (Meter_setMode m mode)))
            ∧ (∀ i : Nat, (AllSPUsMeter_getRange host this).2 ≤ (i : Int) →
                data'.meters[i]? = data.meters[i]?)
            ∧ ((∀ m : Meter, (Meter_setMode m mode).mode = mode) →
                (∀ a b : Meter, (Meter_setMode a mode).mode = (Meter_setMode b mode).mode →
                  (Meter_setMode a mode).h = (Meter_setMode b mode).h) →
                ∀ i : Nat, (i : Int) < (AllSPUsMeter_getRange host this).2 →
                  ∃ child first, data'.meters[i]? = some (some child)
                    ∧ data'.meters[0]? = some (some first)
                    ∧ child.mode = mode ∧ child.mode = this'.mode
                    ∧ child.h = first.h)) := by
  constructor
  · intro hzero
    have hrange : AllSPUsMeter_getRange host
          { name := this.name, mode := mode, h := this.h, meterData := some data }
        = AllSPUsMeter_getRange host this := getRange_congr host _ _ rfl
    refine ⟨{ name := this.name, mode := mode, h := 1, meterData := some data }, ?_, rfl,
      hd.symm⟩
    unfold SPUMeterCommonUpdateMode
    rw [hd]
    simp only [hrange, hzero, if_true]
  · intro m0 hc hfull h0 hpos
    obtain ⟨ms', hrun, hlen, hget⟩ :=
      updateMode_run Meter_setMode host this data m0 mode ncol hd hn hc hfull h0 hpos
    have hslot : ∀ (i : Nat) (m : Meter), (i : Int) < (AllSPUsMeter_getRange host this).2 →
        data.meters[i]? = some (some m) → ms'[i]? = some (some (Meter_setMode m mode)) := by
      intro i m hi hm
      rw [hget i, if_pos (by omega), hm]
      rfl
    refine ⟨_, { spus := data.spus, meters := ms' }, hrun, rfl, rfl, hlen, hslot, ?_, ?_⟩
    · intro i hi
      show ms'[i]? = _
      rw [hget i, if_neg (by omega)]
    · intro hsets hheight i hi
      obtain ⟨m, hm⟩ := hfull i hi
      refine ⟨Meter_setMode m mode, Meter_setMode m0 mode, hslot i m hi hm,
        hslot 0 m0 (by omega) h0, hsets m, hsets m, ?_⟩
      exact hheight m m0 ((hsets m).trans (hsets m0).symm)

theorem updateMode_propagates_witness :
    ∃ this' data',
      SPUMeterCommonUpdateMode sampleSetMode (sampleHost 3) (sampleParent "AllSPUs" 3) 4 1
        = some this'
      ∧ this'.mode = 4
      ∧ this'.meterData = some data'
      ∧ data'.meters[2]? = some (some (sampleSetMode (Meter_new 3) 4)) :=
  let ⟨this', data', hrun, hmode, hdata, _, hslot, _⟩ :=
    (updateMode_propagates sampleSetMode (sampleHost 3) (sampleParent "AllSPUs" 3)
      { spus := 3, meters := (List.range 3).map fun i => some (Meter_new (i + 1)) }
      4 1 rfl (by decide)).2 (Meter_new 1) (by decide)
      (fun i hi => by
        have h3 : (AllSPUsMeter_getRange (sampleHost 3) (sampleParent "AllSPUs" 3)).2 = 3 := rfl
        rw [h3] at hi
        have hi3 : i < 3 := by omega
        interval_cases i <;> exact ⟨_, rfl⟩)
      rfl (by decide)
  ⟨this', data', hrun, hmode, hdata, hslot 2 (Meter_new 3) (by decide) rfl⟩

/-- C20: every child is drawn inside the parent's rectangle.  Let the parent's
height `H` be set by `SPUMeterCommonUpdateMode` with the `ncol ≥ 1` that
`SPUMeterCommonDraw` then uses, and let `w ≥ 0`.  With no unit the draw issues
no call.  With `count ≥ 1`, all children having the height `h > 0` of the first
child after the mode change, the draw returns `count` calls and for every
`i < count` the call `(xpos, ypos, colwidth)` to child `i` satisfies
`x ≤ xpos`, `xpos + colwidth ≤ x + w`, `y ≤ ypos` and
`ypos + (height of child i) ≤ y + H`. -/
theorem children_inside_parent (Meter_setMode : Meter → Nat → Meter) (host : Machine)
    (this this' : ParentMeter) (data : SPUMeterData) (mode : Nat) (ncol x y w : Int)
    (hd : this.meterData = some data) (hn : 1 ≤ ncol) (hw : 0 ≤ w)
    (hupd : SPUMeterCommonUpdateMode Meter_setMode host this mode ncol = some this') :
    ((AllSPUsMeter_getRange host this).2 = 0 →
        SPUMeterCommonDraw host this' x y w ncol = some [])
      ∧ (∀ m0 : Meter, 1 ≤ (AllSPUsMeter_getRange host this).2 →
          (∀ i : Nat, (i : Int) < (AllSPUsMeter_getRange host this).2 →
            ∃ m, data.meters[i]? = some (some m)
              ∧ (Meter_setMode m mode).h = (Meter_setMode m0 mode).h) →
          data.meters[0]? = some (some m0) →
          0 < (Meter_setMode m0 mode).h →
          ∃ calls data', SPUMeterCommonDraw host this' x y w ncol = some calls
            ∧ this'.meterData = some data'
            ∧ (calls.length : Int) = (AllSPUsMeter_getRange host this).2
            ∧ ∀ i : Nat, (i : Int) < (AllSPUsMeter_getRange host this).2 →
                ∃ c child, calls[i]? = some c ∧ data'.meters[i]? = some (some child)
                  ∧ c.child = i
                  ∧ child.h = (Meter_setMode m0 mode).h
                  ∧ x ≤ c.x ∧ c.x + c.w ≤ x + w
                  ∧ y ≤ c.y ∧ c.y + child.h ≤ y + this'.h) := by
  have hrange : AllSPUsMeter_getRange host
        { name := this.name, mode := mode, h := this.h, meterData := some data }
      = AllSPUsMeter_getRange host this := getRange_congr host _ _ rfl
  constructor
  · intro hzero
    have hthis' : this' = { name := this.name, mode := mode, h := 1, meterData := some data } := by
      unfold SPUMeterCommonUpdateMode at hupd
      rw [hd] at hupd
      simp only [hrange, hzero, if_true] at hupd
      exact (Option.some.inj hupd).symm
    have hr' : AllSPUsMeter_getRange host this' = AllSPUsMeter_getRange host this :=
      getRange_congr host _ _ (by rw [hthis'])
    have hne : ncol ≠ 0 := by omega
    unfold SPUMeterCommonDraw
    rw [hr', hthis']
    simp only [hzero, hne, if_false, Int.toNat_zero, forLoop]
  · intro m0 hc hsame h0 hpos
    have hfull : ∀ i : Nat, (i : Int) < (AllSPUsMeter_getRange host this).2 →
        ∃ m, data.meters[i]? = some (some m) :=
      fun i hi => (hsame i hi).imp fun _ hm => hm.1
    obtain ⟨ms', hrun, _, hget⟩ :=
      updateMode_run Meter_setMode host this data m0 mode ncol hd hn hc hfull h0 hpos
    have hthis' := Option.some.inj (hrun.symm.trans hupd)
    have hr' : AllSPUsMeter_getRange host this' = AllSPUsMeter_getRange host this :=
      getRange_congr host _ _ (by rw [← hthis'])
    have hmd : this'.meterData = some { spus := data.spus, meters := ms' } := by rw [← hthis']
    have hH : this'.h = (Meter_setMode m0 mode).h
        * (((AllSPUsMeter_getRange host this).2 + ncol - 1) / ncol) := by rw [← hthis']
    have hslot : ∀ (i : Nat) (m : Meter), (i : Int) < (AllSPUsMeter_getRange host this).2 →
        data.meters[i]? = some (some m) → ms'[i]? = some (some (Meter_setMode m mode)) := by
      intro i m hi hm
      rw [hget i, if_pos (by omega), hm]
      rfl
    have hdraw := commonDraw_eq_map host this' { spus := data.spus, meters := ms' }
      (Meter_setMode m0 mode) x y w ncol hmd (by rw [hr']; exact hc) hn hw
      (hslot 0 m0 (by omega) h0)
      (fun i hi => by
        rw [hr'] at hi
        obtain ⟨m, hm⟩ := hfull i hi
        exact ⟨_, hslot i m hi hm⟩)
    rw [hr'] at hdraw
    refine ⟨_, _, hdraw, hmd, ?_, ?_⟩
    · simp only [List.length_map, List.length_range]
      omega
    · intro i hi
      obtain ⟨m, hm, hmh⟩ := hsame i hi
      obtain ⟨hcol0, hcol1, hrow0, hrow1⟩ :=
        grid_cell_bounds (AllSPUsMeter_getRange host this).2 ncol (i : Int) hc hn
          (Int.natCast_nonneg i) hi
      have hbase : 0 ≤ w / ncol := Int.ediv_nonneg hw (by omega)
      have hrem0 : 0 ≤ w % ncol := Int.emod_nonneg w (by omega)
      have hsplit := Int.ediv_add_emod w ncol
      have hmin0 : 0 ≤ min ((i : Int) / (((AllSPUsMeter_getRange host this).2 + ncol - 1) / ncol))
          (w % ncol) := le_min hcol0 hrem0
      have hminr : min ((i : Int) / (((AllSPUsMeter_getRange host this).2 + ncol - 1) / ncol))
          (w % ncol) ≤ w % ncol := min_le_right _ _
      refine ⟨{ child := i
                x := x + (w / ncol)
                        * ((i : Int) / (((AllSPUsMeter_getRange host this).2 + ncol - 1) / ncol))
                      + min ((i : Int) / (((AllSPUsMeter_getRange host this).2 + ncol - 1) / ncol))
                          (w % ncol)
                y := y + ((i : Int) % (((AllSPUsMeter_getRange host this).2 + ncol - 1) / ncol))
                        * (Meter_setMode m0 mode).h
                w := w / ncol },
        Meter_setMode m mode, ?_, hslot i m hi hm, rfl, hmh, ?_, ?_, ?_, ?_⟩
      · rw [List.getElem?_map, List.getElem?_range (by omega)]
        rfl
      · show x ≤ x + w / ncol * _ + _
        have := mul_nonneg hbase hcol0
        linarith
      · show x + w / ncol * _ + _ + w / ncol ≤ x + w
        have h1 : (w / ncol)
            * ((i : Int) / (((AllSPUsMeter_getRange host this).2 + ncol - 1) / ncol) + 1)
            ≤ (w / ncol) * ncol := mul_le_mul_of_nonneg_left (by omega) hbase
        nlinarith
      · show y ≤ y + _ * (Meter_setMode m0 mode).h
        have := mul_nonneg hrow0 (le_of_lt hpos)
        linarith
      · show y + _ * (Meter_setMode m0 mode).h + (Meter_setMode m mode).h ≤ y + this'.h
        rw [hH, hmh]
        have h1 : (Meter_setMode m0 mode).h
            * ((i : Int) % (((AllSPUsMeter_getRange host this).2 + ncol - 1) / ncol) + 1)
            ≤ (Meter_setMode m0 mode).h
              * (((AllSPUsMeter_getRange host this).2 + ncol - 1) / ncol) :=
          mul_le_mul_of_nonneg_left (by omega) (le_of_lt hpos)
        nlinarith

theorem children_inside_parent_witness :
    ∃ calls data', SPUMeterCommonDraw (sampleHost 5) sampleParentModed 0 0 11 2 = some calls
      ∧ sampleParentModed.meterData = some data'
      ∧ (calls.length : Int) = 5 :=
  let ⟨calls, data', hrun, hmd, hlen, _⟩ :=
    (children_inside_parent sampleSetMode (sampleHost 5) (sampleParent "AllSPUs2" 5)
      sampleParentModed
      { spus := 5, meters := (List.range 5).map fun i => some (Meter_new (i + 1)) }
      3 2 0 0 11 rfl (by decide) (by decide) rfl).2 (Meter_new 1) (by decide)
      (fun i hi => by
        have h5 : (AllSPUsMeter_getRange (sampleHost 5) (sampleParent "AllSPUs2" 5)).2 = 5 := rfl
        rw [h5] at hi
        have hi5 : i < 5 := by omega
        interval_cases i <;> exact ⟨_, rfl, rfl⟩)
      rfl (by decide)
  ⟨calls, data', hrun, hmd, hlen.trans rfl⟩

/-! ## The pool under a changed unit count: theorems -/

/-- The run of `AllSPUsMeter_updateValues` on a pool whose first `count` slots
are filled: the children below `count` are refreshed, the others untouched. -/
theorem allUpdateValues_run (ext : Externals) (host : Machine) (this : ParentMeter)
    (data : SPUMeterData) (hd : this.meterData = some data)
    (hfull : ∀ i : Nat, (i : Int) < (AllSPUsMeter_getRange host this).2 →
      ∃ m, data.meters[i]? = some (some m)) :
    ∃ ms' : List (Option Meter),
      AllSPUsMeter_updateValues ext host this
        = some { this with meterData := some { data with meters := ms' } }
      ∧ ms'.length = data.meters.length
      ∧ ∀ j : Nat, ms'[j]? =
          if j < (AllSPUsMeter_getRange host this).2.toNat then
            (data.meters[j]?).map (Option.map (SPUMeter_updateValues ext host))
          else data.meters[j]? := by
  obtain ⟨ms', hrun, hlen, hget⟩ := forLoop_applySlot (SPUMeter_updateValues ext host)
    (AllSPUsMeter_getRange host this).2.toNat data.meters (fun i hi => hfull i (by omega))
  have hrun' : forLoop (updateSlot ext host)
      (AllSPUsMeter_getRange host this).2.toNat data.meters = some ms' := hrun
  refine ⟨ms', ?_, hlen, hget⟩
  unfold AllSPUsMeter_updateValues
  rw [hd]
  simp only [hrun', Option.map_some']

/-- C15, a defect of the code: later calls are not confined to the pool as
sized at first init.  The pool of `samplePoolOfTwo` was sized by the first init
on a machine with two units.  After the unit count has grown to four, init,
refresh, setMode and both draws fault: each recomputes the count from the
current `existingSPUs` and accesses the slot at index 2, outside the two-slot
array.  After it has shrunk to one, refresh and both draws return but operate on
child 0 only: child 1 is skipped. -/
theorem pool_does_not_ignore_count_change :
    SPUMeterCommonInit (sampleHost 2)
        { name := "AllSPUs", mode := 0, h := 1, meterData := none }
      = some (samplePoolOfTwo,
          [PoolEvent.allocData, PoolEvent.allocSlots 2, PoolEvent.construct 1, PoolEvent.init 0,
           PoolEvent.construct 2, PoolEvent.init 1])
      ∧ SPUMeterCommonInit (sampleHost 4) samplePoolOfTwo = none
      ∧ AllSPUsMeter_updateValues sampleExternals (sampleHost 4) samplePoolOfTwo = none
      ∧ SPUMeterCommonUpdateMode sampleSetMode (sampleHost 4) samplePoolOfTwo 3 1 = none
      ∧ SingleColSPUsMeter_draw (sampleHost 4) samplePoolOfTwo 0 0 80 = none
      ∧ SPUMeterCommonDraw (sampleHost 4) samplePoolOfTwo 0 0 80 2 = none
      ∧ SingleColSPUsMeter_draw (sampleHost 1) samplePoolOfTwo 0 0 80
          = some [{ child := 0, x := 0, y := 0, w := 80 }]
      ∧ SPUMeterCommonDraw (sampleHost 1) samplePoolOfTwo 0 0 80 2
          = some [{ child := 0, x := 0, y := 0, w := 40 }]
      ∧ (AllSPUsMeter_updateValues sampleExternals (sampleHost 1) samplePoolOfTwo).map
            (fun this' => this'.meterData.map fun data' => data'.meters[1]?)
          = some (some (some (some (SPUMeter_init (sampleHost 2) (Meter_new 2))))) := by
  refine ⟨rfl, rfl, rfl, rfl, rfl, rfl, rfl, rfl, rfl⟩

/-! ## Children do not overlap: theorems -/

/-- Consecutive columns are at least `colwidth` apart, so the offsets are
non-decreasing and a later column starts at or after the end of an earlier one. -/
theorem columnOffset_separated (colwidth diff a b : Int) (hcw : 0 ≤ colwidth) (hab : a < b) :
    columnOffset colwidth diff a + colwidth ≤ columnOffset colwidth diff b := by
  rw [columnOffset_eq, columnOffset_eq]
  have hmin : min a diff ≤ min b diff := min_le_min (le_of_lt hab) (le_refl _)
  have hmul : colwidth * (a + 1) ≤ colwidth * b := mul_le_mul_of_nonneg_left (by omega) hcw
  nlinarith

/-- C21: no two children overlap in the grid.  For every `w ≥ 0`, `ncol ≥ 1`,
first-child height `h > 0` and distinct indices `i ≠ j` below `count`, on a
pool whose first `count` slots are filled, the calls `SPUMeterCommonDraw` issues
to `i` and `j` lie in different cells: their rows or their columns differ; when
the rows differ the vertical spans `[ypos, ypos + h)` are disjoint, and when the
columns differ the horizontal spans `[xpos, xpos + colwidth)` are disjoint.
Column offsets are non-decreasing and consecutive columns are at least
`colwidth` apart. -/
theorem children_do_not_overlap (host : Machine) (this : ParentMeter) (data : SPUMeterData)
    (m0 : Meter) (x y w ncol : Int)
    (hd : this.meterData = some data)
    (hn : 1 ≤ ncol) (hw : 0 ≤ w)
    (h0 : data.meters[0]? = some (some m0)) (hpos : 0 < m0.h)
    (hfull : ∀ i : Nat, (i : Int) < (AllSPUsMeter_getRange host this).2 →
      ∃ m, data.meters[i]? = some (some m)) :
    (∀ c : Int, 0 ≤ c →
        columnOffset (Int.tdiv w ncol) (Int.tmod w ncol) c + Int.tdiv w ncol
          ≤ columnOffset (Int.tdiv w ncol) (Int.tmod w ncol) (c + 1))
      ∧ ∀ i j : Nat, (i : Int) < (AllSPUsMeter_getRange host this).2 →
          (j : Int) < (AllSPUsMeter_getRange host this).2 → i ≠ j →
          ∃ calls ci cj, SPUMeterCommonDraw host this x y w ncol = some calls
            ∧ calls[i]? = some ci ∧ calls[j]? = some cj
            ∧ ci.child = i ∧ cj.child = j
            ∧ ((gridCell (gridRows (AllSPUsMeter_getRange host this).2 ncol) (i : Int)).2
                  ≠ (gridCell (gridRows (AllSPUsMeter_getRange host this).2 ncol) (j : Int)).2
                ∨ (gridCell (gridRows (AllSPUsMeter_getRange host this).2 ncol) (i : Int)).1
                  ≠ (gridCell (gridRows (AllSPUsMeter_getRange host this).2 ncol) (j : Int)).1)
            ∧ ((gridCell (gridRows (AllSPUsMeter_getRange host this).2 ncol) (i : Int)).2
                  ≠ (gridCell (gridRows (AllSPUsMeter_getRange host this).2 ncol) (j : Int)).2 →
                ci.y + m0.h ≤ cj.y ∨ cj.y + m0.h ≤ ci.y)
            ∧ ((gridCell (gridRows (AllSPUsMeter_getRange host this).2 ncol) (i : Int)).1
                  ≠ (gridCell (gridRows (AllSPUsMeter_getRange host this).2 ncol) (j : Int)).1 →
                ci.x + ci.w ≤ cj.x ∨ cj.x + cj.w ≤ ci.x)
            ∧ ¬ ∃ px py : Int, (ci.x ≤ px ∧ px < ci.x + ci.w ∧ ci.y ≤ py ∧ py < ci.y + m0.h)
                ∧ (cj.x ≤ px ∧ px < cj.x + cj.w ∧ cj.y ≤ py ∧ py < cj.y + m0.h) := by
  have hbase : 0 ≤ w / ncol := Int.ediv_nonneg hw (by omega)
  have hdiv : Int.tdiv w ncol = w / ncol := Int.tdiv_eq_ediv hw (by omega)
  have hmod : Int.tmod w ncol = w % ncol := Int.tmod_eq_emod hw (by omega)
  refine ⟨fun c _ => columnOffset_separated _ _ c (c + 1) (by rw [hdiv]; exact hbase) (by omega),
    ?_⟩
  intro i j hi hj hij
  have hc : 1 ≤ (AllSPUsMeter_getRange host this).2 := by omega
  have hrows := gridRows_eq (AllSPUsMeter_getRange host this).2 ncol (by omega) hn
  have hrpos := gridRows_pos (AllSPUsMeter_getRange host this).2 ncol hc hn
  have hdraw := commonDraw_eq_map host this data m0 x y w ncol hd hc hn hw h0 hfull
  have hcelli := gridCell_eq (gridRows (AllSPUsMeter_getRange host this).2 ncol) (i : Int)
    (by omega) (Int.natCast_nonneg i)
  have hcellj := gridCell_eq (gridRows (AllSPUsMeter_getRange host this).2 ncol) (j : Int)
    (by omega) (Int.natCast_nonneg j)
  rw [hcelli, hcellj, hrows]
  rw [hrows] at hrpos
  have hsplit_i := Int.ediv_add_emod (i : Int) (((AllSPUsMeter_getRange host this).2 + ncol - 1) / ncol)
  have hsplit_j := Int.ediv_add_emod (j : Int) (((AllSPUsMeter_getRange host this).2 + ncol - 1) / ncol)
  have hvert : (i : Int) % (((AllSPUsMeter_getRange host this).2 + ncol - 1) / ncol)
        ≠ (j : Int) % (((AllSPUsMeter_getRange host this).2 + ncol - 1) / ncol) →
      y + ((i : Int) % (((AllSPUsMeter_getRange host this).2 + ncol - 1) / ncol)) * m0.h + m0.h
          ≤ y + ((j : Int) % (((AllSPUsMeter_getRange host this).2 + ncol - 1) / ncol)) * m0.h
        ∨ y + ((j : Int) % (((AllSPUsMeter_getRange host this).2 + ncol - 1) / ncol)) * m0.h
            + m0.h
          ≤ y + ((i : Int) % (((AllSPUsMeter_getRange host this).2 + ncol - 1) / ncol)) * m0.h := by
    intro hne
    rcases lt_or_gt_of_ne hne with hlt | hgt
    · left
      have : ((i : Int) % (((AllSPUsMeter_getRange host this).2 + ncol - 1) / ncol) + 1) * m0.h
          ≤ ((j : Int) % (((AllSPUsMeter_getRange host this).2 + ncol - 1) / ncol)) * m0.h :=
        mul_le_mul_of_nonneg_right (by omega) (le_of_lt hpos)
      nlinarith
    · right
      have : ((j : Int) % (((AllSPUsMeter_getRange host this).2 + ncol - 1) / ncol) + 1) * m0.h
          ≤ ((i : Int) % (((AllSPUsMeter_getRange host this).2 + ncol - 1) / ncol)) * m0.h :=
        mul_le_mul_of_nonneg_right (by omega) (le_of_lt hpos)
      nlinarith
  have hoff : ∀ a b : Int, a < b →
      x + w / ncol * a + min a (w % ncol) + w / ncol ≤ x + w / ncol * b + min b (w % ncol) := by
    intro a b hab
    have := columnOffset_separated (w / ncol) (w % ncol) a b hbase hab
    rw [columnOffset_eq, columnOffset_eq] at this
    linarith
  have hhoriz : (i : Int) / (((AllSPUsMeter_getRange host this).2 + ncol - 1) / ncol)
        ≠ (j : Int) / (((AllSPUsMeter_getRange host this).2 + ncol - 1) / ncol) →
      x + w / ncol * ((i : Int) / (((AllSPUsMeter_getRange host this).2 + ncol - 1) / ncol))
            + min ((i : Int) / (((AllSPUsMeter_getRange host this).2 + ncol - 1) / ncol))
                (w % ncol) + w / ncol
          ≤ x + w / ncol * ((j : Int) / (((AllSPUsMeter_getRange host this).2 + ncol - 1) / ncol))
              + min ((j : Int) / (((AllSPUsMeter_getRange host this).2 + ncol - 1) / ncol))
                  (w % ncol)
        ∨ x + w / ncol * ((j : Int) / (((AllSPUsMeter_getRange host this).2 + ncol - 1) / ncol))
              + min ((j : Int) / (((AllSPUsMeter_getRange host this).2 + ncol - 1) / ncol))
                  (w % ncol) + w / ncol
          ≤ x + w / ncol * ((i : Int) / (((AllSPUsMeter_getRange host this).2 + ncol - 1) / ncol))
              + min ((i : Int) / (((AllSPUsMeter_getRange host this).2 + ncol - 1) / ncol))
                  (w % ncol) := by
    intro hne
    rcases lt_or_gt_of_ne hne with hlt | hgt
    · exact Or.inl (hoff _ _ hlt)
    · exact Or.inr (hoff _ _ hgt)
  have hcells : (i : Int) % (((AllSPUsMeter_getRange host this).2 + ncol - 1) / ncol)
        ≠ (j : Int) % (((AllSPUsMeter_getRange host this).2 + ncol - 1) / ncol)
      ∨ (i : Int) / (((AllSPUsMeter_getRange host this).2 + ncol - 1) / ncol)
        ≠ (j : Int) / (((AllSPUsMeter_getRange host this).2 + ncol - 1) / ncol) := by
    by_contra hcon
    push_neg at hcon
    rw [hcon.1, hcon.2] at hsplit_i
    have : (i : Int) = (j : Int) := by omega
    exact hij (by exact_mod_cast this)
  refine ⟨_,
    { child := i
      x := x + w / ncol * ((i : Int) / (((AllSPUsMeter_getRange host this).2 + ncol - 1) / ncol))
            + min ((i : Int) / (((AllSPUsMeter_getRange host this).2 + ncol - 1) / ncol))
                (w % ncol)
      y := y + ((i : Int) % (((AllSPUsMeter_getRange host this).2 + ncol - 1) / ncol)) * m0.h
      w := w / ncol },
    { child := j
      x := x + w / ncol * ((j : Int) / (((AllSPUsMeter_getRange host this).2 + ncol - 1) / ncol))
            + min ((j : Int) / (((AllSPUsMeter_getRange host this).2 + ncol - 1) / ncol))
                (w % ncol)
      y := y + ((j : Int) % (((AllSPUsMeter_getRange host this).2 + ncol - 1) / ncol)) * m0.h
      w := w / ncol },
    hdraw, ?_, ?_, rfl, rfl, hcells, hvert, hhoriz, ?_⟩
  · rw [List.getElem?_map, List.getElem?_range (by omega)]
    rfl
  · rw [List.getElem?_map, List.getElem?_range (by omega)]
    rfl
  · rintro ⟨px, py, ⟨hx1, hx2, hy1, hy2⟩, ⟨hx3, hx4, hy3, hy4⟩⟩
    simp only at hx1 hx2 hy1 hy2 hx3 hx4 hy3 hy4
    rcases hcells with hr | hcl
    · rcases hvert hr with h | h <;> omega
    · rcases hhoriz hcl with h | h <;> omega

theorem children_do_not_overlap_witness :
    ∃ calls ci cj,
      SPUMeterCommonDraw (sampleHost 5) (sampleParent "AllSPUs2" 5) 2 1 11 2 = some calls
      ∧ calls[1]? = some ci ∧ calls[3]? = some cj ∧ ci.child = 1 ∧ cj.child = 3 :=
  let ⟨calls, ci, cj, hrun, hi, hj, hci, hcj, _⟩ :=
    (children_do_not_overlap (sampleHost 5) (sampleParent "AllSPUs2" 5)
      { spus := 5, meters := (List.range 5).map fun i => some (Meter_new (i + 1)) }
      (Meter_new 1) 2 1 11 2 rfl (by decide) (by decide) rfl (by decide)
      (fun i hi => by
        have h5 : (AllSPUsMeter_getRange (sampleHost 5) (sampleParent "AllSPUs2" 5)).2 = 5 := rfl
        rw [h5] at hi
        have hi5 : i < 5 := by omega
        interval_cases i <;> exact ⟨_, rfl⟩)).2 1 3 (by decide) (by decide) (by decide)
  ⟨calls, ci, cj, hrun, hi, hj, hci, hcj⟩

/-! ## The aggregate meter classes: theorems -/

end SPUMeter
